import Mathlib

/-!
Formal model of the kmsg MCP stdio server (`src/tools/kmsg-mcp.py`).

The Python program is shallowly embedded: JSON values become the inductive
type `JVal`, the external `kmsg` process becomes an oracle (`World`) mapping
an argument vector and timeout to an outcome, and every handler is a pure
function that additionally returns the list of side effects (process starts,
filesystem queries) it performed, so that theorems can speak about which
external actions a call triggers.
-/

set_option maxHeartbeats 1000000
set_option maxRecDepth 4000

/-- JSON values, the data model for protocol messages and tool payloads.
Numbers are integers: every numeric literal produced or consumed by the
server (latencies, limits, ids, counts) is an integer. -/
inductive JVal where
  | null : JVal
  | bool (b : Bool) : JVal
  | num (n : Int) : JVal
  | str (s : String) : JVal
  | arr (xs : List JVal) : JVal
  | obj (kvs : List (String × JVal)) : JVal

/-- Lookup of a key in an object member list (Python `dict` access). -/
def jlookup : List (String × JVal) → String → Option JVal
  | [], _ => none
  | (k, v) :: rest, key => if k = key then some v else jlookup rest key

/-- Python `arguments.get(key, default)` on a dict of JSON values. -/
def pyGetD (kvs : List (String × JVal)) (key : String) (dflt : JVal) : JVal :=
  (jlookup kvs key).getD dflt

/-- `v == "lit"` in Python: equality of a JSON value with a string literal. -/
def isStrEq (v : JVal) (s : String) : Bool :=
  match v with
  | .str t => t = s
  | _ => false

/-- The decimal digit character for `d < 10`. -/
def digCh (d : Nat) : Char := Char.ofNat (48 + d)

/-- Is `c` a decimal digit? -/
def isDigitCh (c : Char) : Bool := decide ('0' ≤ c) && decide (c ≤ '9')

/-- Numeric value of a decimal digit character. -/
def digVal (c : Char) : Nat := c.toNat - 48

/-- Fuelled decimal rendering; the fuel only drives structural recursion
(`natRepr` always supplies enough). -/
def natReprAux : Nat → Nat → List Char
  | 0, _ => []
  | fuel + 1, n =>
    if n < 10 then [digCh n]
    else natReprAux fuel (n / 10) ++ [digCh (n % 10)]

/-- Decimal representation of a natural number, as characters
(the rendering used by Python `str`/`repr` of a nonnegative int). -/
def natRepr (n : Nat) : List Char := natReprAux (n + 1) n

/-- Decimal representation of an integer (Python `str(int)`). -/
def intRepr : Int → List Char
  | Int.ofNat n => natRepr n
  | Int.negSucc m => '-' :: natRepr (m + 1)

/-- Decimal representation of an integer as a string. -/
def intReprStr (i : Int) : String := ⟨intRepr i⟩

/-- Python truthiness (`bool(v)`) of a JSON value. -/
def pyTruthy : JVal → Bool
  | .null => false
  | .bool b => b
  | .num n => n ≠ 0
  | .str s => s ≠ ""
  | .arr xs => !xs.isEmpty
  | .obj kvs => !kvs.isEmpty

/-- Python `str.strip` whitespace test. -/
def isPyWs (c : Char) : Bool :=
  c = ' ' || c = '\t' || c = '\n' || c = '\r' || c = '\x0b' || c = '\x0c'

/-- Drop leading Python whitespace. -/
def trimLeft : List Char → List Char
  | [] => []
  | c :: cs => if isPyWs c then trimLeft cs else c :: cs

/-- `str.strip()` on a character list: drop whitespace on both ends. -/
def trimBoth (l : List Char) : List Char :=
  (trimLeft (trimLeft l.reverse).reverse)

/-- Python `s.strip()`. -/
def pyStrip (s : String) : String := ⟨trimBoth s.data⟩

/-- Lowercase a character list (`str.lower()`). -/
def lowerList (l : List Char) : List Char := l.map Char.toLower

/-- Python `s.lower()`. -/
def strLower (s : String) : String := ⟨lowerList s.data⟩

/-- Fold a digit list into a natural number (little helper for parsing). -/
def digitsVal (acc : Nat) : List Char → Nat
  | [] => acc
  | c :: cs => digitsVal (acc * 10 + digVal c) cs

/-- Parse a nonempty all-digit character list, rejecting anything else. -/
def allDigits : List Char → Option Nat
  | [] => none
  | ds => if ds.all isDigitCh then some (digitsVal 0 ds) else none

/-- Python `int(s)` on a string: strip whitespace, optional sign, digits. -/
def pyIntOfStr (s : String) : Option Int :=
  match (pyStrip s).data with
  | '-' :: ds => (allDigits ds).map (fun n => -(n : Int))
  | '+' :: ds => (allDigits ds).map (fun n => (n : Int))
  | ds => (allDigits ds).map (fun n => (n : Int))

/-- Python `int(v)` on a JSON value: ints pass through, bools become 0/1,
numeric strings parse; everything else raises `TypeError`/`ValueError`
(modelled as `none`). -/
def pyInt : JVal → Option Int
  | .num n => some n
  | .bool b => some (if b then 1 else 0)
  | .str s => pyIntOfStr s
  | _ => none

/-- Does the character list `pre` occur at the start of `l`? -/
def isStartOf : List Char → List Char → Bool
  | [], _ => true
  | _ :: _, [] => false
  | a :: as, b :: bs => a = b && isStartOf as bs

/-- Does `needle` occur as a contiguous sublist of `hay`? (`in` on `str`.) -/
def containsSub (needle : List Char) : List Char → Bool
  | [] => needle.isEmpty
  | c :: rest => isStartOf needle (c :: rest) || containsSub needle rest

/-- Python `needle in hay` on strings. -/
def strContains (hay needle : String) : Bool := containsSub needle.data hay.data

/-! ## Process Executor (`KmsgRunner.run`) -/

/-- What one run of the external program does, as reported by
`subprocess`: the program may fail to start (`OSError`), complete with an
exit code, or exceed the timeout.  This is the oracle side of the
Executor; it abstracts the operating system, not the bridge code. -/
inductive ProcOutcome where
  | startFailure (errMsg : String) (latencyMs : Nat) : ProcOutcome
  | completed (exitCode : Int) (stdoutTxt stderrTxt : String) (latencyMs : Nat) : ProcOutcome
  | timedOut (stdoutTxt stderrTxt : String) (latencyMs : Nat) : ProcOutcome

/-- `CommandResult` exactly as the dataclass in the source. -/
structure CommandResult where
  returncode : Int
  stdout : String
  stderr : String
  latency_ms : Nat
  timed_out : Bool
deriving Repr, DecidableEq

/-- `KmsgRunner.run`: turn the raw outcome of one process run into a
`CommandResult`.  An `OSError` at startup yields the synthetic exit code
127 with empty stdout and the failure description as stderr; a timeout
yields exit code 124 with `timed_out := true` and the partial output;
normal completion passes the exit code and captured output through. -/
def runCommand : ProcOutcome → CommandResult
  | .startFailure msg lat =>
      { returncode := 127, stdout := "", stderr := msg, latency_ms := lat, timed_out := false }
  | .completed rc out err lat =>
      { returncode := rc, stdout := out, stderr := err, latency_ms := lat, timed_out := false }
  | .timedOut out err lat =>
      { returncode := 124, stdout := out, stderr := err, latency_ms := lat, timed_out := true }

/-- The environment the server runs against: the behaviour of the external
program for each argument vector and timeout, and the filesystem. -/
structure World where
  procRun : List String → Nat → ProcOutcome
  isFile : String → Bool

/-- One observable side effect of handling a request: starting the external
process with a given argument vector and timeout (seconds), or querying the
filesystem (`os.path.isfile`). -/
inductive Eff where
  | proc (cmd : List String) (timeoutSec : Nat) : Eff
  | fsIsFile (path : String) : Eff
deriving Repr, DecidableEq

/-- The process invocations contained in an effect trace. -/
def procCalls (effs : List Eff) : List (List String × Nat) :=
  effs.filterMap (fun e => match e with
    | .proc c t => some (c, t)
    | _ => none)

/-- Startup configuration, resolved once before serving (binary path,
defaults from the environment, reported server version). -/
structure Config where
  kmsgBin : String
  deepRecoveryDefault : Bool
  traceDefault : Bool
  serverVersion : String

/-! ## Error Classifier -/

/-- `_extract_error_code`: classify the combined textual output of a failed
execution, first match wins. -/
def extractErrorCode (combined : String) : String :=
  let lowered := strLower combined
  if strContains lowered "no such file or directory" || strContains lowered "not found" then
    "KMSG_BIN_NOT_FOUND"
  else if strContains combined "WINDOW_NOT_READY" then
    "KAKAO_WINDOW_UNAVAILABLE"
  else if strContains combined "SEARCH_MISS" then
    "CHAT_NOT_FOUND"
  else if strContains combined "Accessibility" || strContains combined "손쉬운 사용" then
    "ACCESSIBILITY_PERMISSION_DENIED"
  else
    "UNKNOWN_EXEC_FAILURE"

/-- `_map_hint`: the static remediation-hint table. -/
def mapHint (code : String) : String :=
  if code = "KMSG_BIN_NOT_FOUND" then
    "Set a valid KMSG_BIN path or install kmsg into PATH."
  else if code = "KAKAO_WINDOW_UNAVAILABLE" then
    "KakaoTalk window was not ready. Open KakaoTalk and retry (or enable deep_recovery)."
  else if code = "CHAT_NOT_FOUND" then
    "Chat was not found in search results. Verify chat name spacing and visibility."
  else if code = "ACCESSIBILITY_PERMISSION_DENIED" then
    "Grant Accessibility permission in System Settings > Privacy & Security > Accessibility."
  else
    "Check raw_stdout/raw_stderr and rerun with trace_ax=true for details."

/-- `_error_payload`: the tool-level error envelope. -/
def errorPayload (code message hint rawStdout rawStderr : String) (latencyMs : Nat) : JVal :=
  .obj [("ok", .bool false),
        ("error", .obj [("code", .str code), ("message", .str message), ("hint", .str hint),
                        ("raw_stdout", .str rawStdout), ("raw_stderr", .str rawStderr)]),
        ("meta", .obj [("latency_ms", .num (latencyMs : Int))])]

/-- The `error.code` field of a tool payload, when present. -/
def payloadCode (p : JVal) : Option String :=
  match p with
  | .obj kvs =>
    match jlookup kvs "error" with
    | some (.obj ekvs) =>
      match jlookup ekvs "code" with
      | some (.str s) => some s
      | _ => none
    | _ => none
  | _ => none

/-- The `meta.latency_ms` field of a tool payload, when present. -/
def payloadLatency (p : JVal) : Option Int :=
  match p with
  | .obj kvs =>
    match jlookup kvs "meta" with
    | some (.obj mkvs) =>
      match jlookup mkvs "latency_ms" with
      | some (.num n) => some n
      | _ => none
    | _ => none
  | _ => none

/-! ## JSON text codec (model of `json.dumps` / `json.loads`)

The server serializes every payload with `json.dumps(..., ensure_ascii=False)`
and parses process output and message bodies with `json.loads`.  Both are
modelled concretely so that the framing round trip can be proved. -/

/-- Lowercase hex digit character for `d < 16` (Python `%x`). -/
def hexDig (d : Nat) : Char :=
  if d < 10 then Char.ofNat (48 + d) else Char.ofNat (87 + d)

/-- Value of a hex digit character (0-9, a-f, A-F). -/
def hexVal (c : Char) : Nat :=
  if isDigitCh c then c.toNat - 48
  else if decide ('a' ≤ c) && decide (c ≤ 'f') then c.toNat - 87
  else c.toNat - 55

/-- Is `c` a hex digit character? -/
def isHexCh (c : Char) : Bool :=
  isDigitCh c || (decide ('a' ≤ c) && decide (c ≤ 'f')) || (decide ('A' ≤ c) && decide (c ≤ 'F'))

/-- JSON string escaping of one character, as `json.dumps` with
`ensure_ascii=False`: quote, backslash and the named control characters get
two-character escapes, all other control characters get `\u00xx`, and
everything else passes through raw. -/
def escChar (c : Char) : List Char :=
  if c = '"' then ['\\', '"']
  else if c = '\\' then ['\\', '\\']
  else if c = '\n' then ['\\', 'n']
  else if c = '\r' then ['\\', 'r']
  else if c = '\t' then ['\\', 't']
  else if c = '\x08' then ['\\', 'b']
  else if c = '\x0c' then ['\\', 'f']
  else if c.toNat < 32 then ['\\', 'u', '0', '0', hexDig (c.toNat / 16), hexDig (c.toNat % 16)]
  else [c]

/-- JSON string escaping of a character list. -/
def escList : List Char → List Char
  | [] => []
  | c :: cs => escChar c ++ escList cs

mutual

/-- `json.dumps(v, ensure_ascii=False)` (compact form, default separators
`", "` and `": "`), as a character list. -/
def jser : JVal → List Char
  | .null => "null".data
  | .bool true => "true".data
  | .bool false => "false".data
  | .num i => intRepr i
  | .str s => '"' :: (escList s.data ++ ['"'])
  | .arr [] => ['[', ']']
  | .arr (x :: xs) => '[' :: ((jser x ++ jserElems xs) ++ [']'])
  | .obj [] => ['\x7b', '\x7d']
  | .obj (m :: ms) => '\x7b' :: ((jserMember m ++ jserMembers ms) ++ ['\x7d'])

/-- One serialized object member, `"key": value`. -/
def jserMember : String × JVal → List Char
  | (k, v) => '"' :: (escList k.data ++ '"' :: ':' :: ' ' :: jser v)

/-- Serialized non-first array elements, each preceded by `", "`. -/
def jserElems : List JVal → List Char
  | [] => []
  | y :: ys => ',' :: ' ' :: (jser y ++ jserElems ys)

/-- Serialized non-first object members, each preceded by `", "`. -/
def jserMembers : List (String × JVal) → List Char
  | [] => []
  | m :: ms => ',' :: ' ' :: (jserMember m ++ jserMembers ms)

end

/-- `json.dumps(v, ensure_ascii=False)` as a string. -/
def dumps (v : JVal) : String := ⟨jser v⟩

/-- Is `c` JSON whitespace? -/
def isWsCh (c : Char) : Bool := c = ' ' || c = '\t' || c = '\n' || c = '\r'

/-- Drop leading JSON whitespace. -/
def skipWs : List Char → List Char
  | [] => []
  | c :: cs => if isWsCh c then skipWs cs else c :: cs

/-- Consume a maximal run of decimal digits, folding them onto `acc`. -/
def parseDigits : List Char → Nat → Nat × List Char
  | [], acc => (acc, [])
  | c :: cs, acc => if isDigitCh c then parseDigits cs (acc * 10 + digVal c) else (acc, c :: cs)

/-- The inverse of one escape: the character denoted by `\e`. -/
def unescCh (e : Char) : Option Char :=
  if e = '"' then some '"'
  else if e = '\\' then some '\\'
  else if e = '/' then some '/'
  else if e = 'b' then some '\x08'
  else if e = 'f' then some '\x0c'
  else if e = 'n' then some '\n'
  else if e = 'r' then some '\r'
  else if e = 't' then some '\t'
  else none

/-- Parse the body of a JSON string (after the opening quote) up to and
including the closing quote, decoding escapes. -/
def parseStringBody : List Char → Option (List Char × List Char)
  | [] => none
  | c :: rest =>
    if c = '"' then some ([], rest)
    else if c = '\\' then
      match rest with
      | [] => none
      | e :: rest2 =>
        if e = 'u' then
          match rest2 with
          | h1 :: h2 :: h3 :: h4 :: rest3 =>
            if isHexCh h1 && isHexCh h2 && isHexCh h3 && isHexCh h4 then
              (parseStringBody rest3).map (fun p =>
                (Char.ofNat (((hexVal h1 * 16 + hexVal h2) * 16 + hexVal h3) * 16 + hexVal h4) :: p.1,
                 p.2))
            else none
          | _ => none
        else
          match unescCh e with
          | some u => (parseStringBody rest2).map (fun p => (u :: p.1, p.2))
          | none => none
    else (parseStringBody rest).map (fun p => (c :: p.1, p.2))

mutual

/-- Fuelled recursive-descent JSON value parser (model of `json.loads`,
restricted to the integer-numeral values the server traffics in). -/
def parseVal : Nat → List Char → Option (JVal × List Char)
  | 0, _ => none
  | f + 1, input =>
    match skipWs input with
    | [] => none
    | c :: rest =>
      if isDigitCh c then
        let p := parseDigits (c :: rest) 0
        some (.num (p.1 : Int), p.2)
      else if c = '-' then
        match rest with
        | d :: _ =>
          if isDigitCh d then
            let p := parseDigits rest 0
            some (.num (-(p.1 : Int)), p.2)
          else none
        | [] => none
      else if c = '"' then
        (parseStringBody rest).map (fun p => (.str ⟨p.1⟩, p.2))
      else if c = '[' then
        match skipWs rest with
        | ']' :: rest2 => some (.arr [], rest2)
        | rest2 => (parseElems f rest2).map (fun p => (.arr p.1, p.2))
      else if c = '\x7b' then
        match skipWs rest with
        | '\x7d' :: rest2 => some (.obj [], rest2)
        | rest2 => (parseMembers f rest2).map (fun p => (.obj p.1, p.2))
      else if c = 'n' then
        match rest with
        | 'u' :: 'l' :: 'l' :: rest2 => some (.null, rest2)
        | _ => none
      else if c = 't' then
        match rest with
        | 'r' :: 'u' :: 'e' :: rest2 => some (.bool true, rest2)
        | _ => none
      else if c = 'f' then
        match rest with
        | 'a' :: 'l' :: 's' :: 'e' :: rest2 => some (.bool false, rest2)
        | _ => none
      else none

/-- Parse one or more comma-separated array elements up to the closing
bracket. -/
def parseElems : Nat → List Char → Option (List JVal × List Char)
  | 0, _ => none
  | f + 1, input =>
    match parseVal f input with
    | none => none
    | some (v, r) =>
      match skipWs r with
      | ',' :: r2 => (parseElems f r2).map (fun p => (v :: p.1, p.2))
      | ']' :: r2 => some ([v], r2)
      | _ => none

/-- Parse one or more comma-separated object members up to the closing
brace. -/
def parseMembers : Nat → List Char → Option (List (String × JVal) × List Char)
  | 0, _ => none
  | f + 1, input =>
    match skipWs input with
    | '"' :: rest =>
      match parseStringBody rest with
      | none => none
      | some (k, r) =>
        match skipWs r with
        | ':' :: r2 =>
          match parseVal f r2 with
          | none => none
          | some (v, r3) =>
            match skipWs r3 with
            | ',' :: r4 => (parseMembers f r4).map (fun p => ((⟨k⟩, v) :: p.1, p.2))
            | '\x7d' :: r4 => some ([(⟨k⟩, v)], r4)
            | _ => none
        | _ => none
    | _ => none

end

/-- `json.loads(s)`: parse one JSON value and require that only whitespace
follows; anything else is a `JSONDecodeError` (modelled as `none`). -/
def loads (s : String) : Option JVal :=
  match parseVal (s.data.length + 1) s.data with
  | some (v, rest) => if skipWs rest = [] then some v else none
  | none => none

mutual

/-- Fuel sufficient for `parseVal` to parse the serialization of a value
(each unit of fuel covers one level of the grammar). -/
def jfuel : JVal → Nat
  | .null => 1
  | .bool _ => 1
  | .num _ => 1
  | .str _ => 1
  | .arr [] => 1
  | .arr (x :: xs) => 1 + jfuelElems (x :: xs)
  | .obj [] => 1
  | .obj (m :: ms) => 1 + jfuelMembers (m :: ms)

/-- Fuel sufficient for `parseElems` on a serialized element list. -/
def jfuelElems : List JVal → Nat
  | [] => 0
  | x :: xs => 1 + max (jfuel x) (jfuelElems xs)

/-- Fuel sufficient for `parseMembers` on a serialized member list. -/
def jfuelMembers : List (String × JVal) → Nat
  | [] => 0
  | (_, v) :: ms => 1 + max (jfuel v) (jfuelMembers ms)

end

/-! ## Pretty serialization (`json.dumps(..., indent=2, sort_keys=True)`) -/

/-- Newline followed by `n` spaces of indentation. -/
def nlIndent (n : Nat) : List Char := '\n' :: List.replicate n ' '

/-- Lexicographic comparison of character lists (Python string order on
the code points, used by `sort_keys`). -/
def listLeCh : List Char → List Char → Bool
  | [], _ => true
  | _ :: _, [] => false
  | a :: as, b :: bs => if a = b then listLeCh as bs else decide (a < b)

/-- Insert one rendered object member into a key-sorted list. -/
def insertItem (m : String × List Char) : List (String × List Char) → List (String × List Char)
  | [] => [m]
  | x :: xs => if listLeCh m.1.data x.1.data then m :: x :: xs else x :: insertItem m xs

/-- Sort rendered object members by key (`sort_keys=True`). -/
def sortItems : List (String × List Char) → List (String × List Char)
  | [] => []
  | m :: ms => insertItem m (sortItems ms)

/-- Render the members of a pretty-printed object, first member. -/
def joinItemsRest (ind : Nat) : List (String × List Char) → List Char
  | [] => []
  | (k, cs) :: rest =>
      ',' :: (nlIndent (ind + 2) ++ ('"' :: escList k.data ++ '"' :: ':' :: ' ' :: cs)
              ++ joinItemsRest ind rest)

/-- Render the members of a pretty-printed object, with separators. -/
def joinItems (ind : Nat) : List (String × List Char) → List Char
  | [] => []
  | (k, cs) :: rest =>
      nlIndent (ind + 2) ++ ('"' :: escList k.data ++ '"' :: ':' :: ' ' :: cs)
      ++ joinItemsRest ind rest

mutual

/-- `json.dumps(v, ensure_ascii=False, indent=2, sort_keys=True)` at the
given indentation level, as used for the human-readable text content of a
tools/call response. -/
def jpretty (ind : Nat) : JVal → List Char
  | .null => "null".data
  | .bool true => "true".data
  | .bool false => "false".data
  | .num i => intRepr i
  | .str s => '"' :: (escList s.data ++ ['"'])
  | .arr [] => ['[', ']']
  | .arr (x :: xs) =>
      '[' :: (nlIndent (ind + 2) ++ jpretty (ind + 2) x ++ jprettyElems (ind + 2) xs
              ++ nlIndent ind ++ [']'])
  | .obj [] => ['\x7b', '\x7d']
  | .obj (m :: ms) =>
      '\x7b' :: (joinItems ind (sortItems (jprettyItem (ind + 2) m :: jprettyItems (ind + 2) ms))
                 ++ nlIndent ind ++ ['\x7d'])

/-- Pretty-render the non-first elements of an array. -/
def jprettyElems (ind : Nat) : List JVal → List Char
  | [] => []
  | y :: ys => ',' :: (nlIndent ind ++ jpretty ind y ++ jprettyElems ind ys)

/-- Pretty-render one object member (key paired with rendered value). -/
def jprettyItem (ind : Nat) : String × JVal → String × List Char
  | (k, v) => (k, jpretty ind v)

/-- Pretty-render all object members (keys paired with rendered values). -/
def jprettyItems (ind : Nat) : List (String × JVal) → List (String × List Char)
  | [] => []
  | m :: ms => jprettyItem ind m :: jprettyItems ind ms

end

/-- `json.dumps(v, ensure_ascii=False, indent=2, sort_keys=True)`. -/
def prettyDumps (v : JVal) : String := ⟨jpretty 0 v⟩

/-! ## Python `str()` / `repr()` of JSON values -/

mutual

/-- Python `repr` of a decoded JSON value. -/
def pyRepr : JVal → String
  | .null => "None"
  | .bool true => "True"
  | .bool false => "False"
  | .num n => intReprStr n
  | .str s => "\x27" ++ s ++ "\x27"
  | .arr xs => "[" ++ pyReprList xs ++ "]"
  | .obj kvs => "\x7b" ++ pyReprMembers kvs ++ "\x7d"

/-- Python `repr` of the elements of a list. -/
def pyReprList : List JVal → String
  | [] => ""
  | [x] => pyRepr x
  | x :: xs => pyRepr x ++ ", " ++ pyReprList xs

/-- Python `repr` of the members of a dict. -/
def pyReprMembers : List (String × JVal) → String
  | [] => ""
  | [(k, v)] => "\x27" ++ k ++ "\x27: " ++ pyRepr v
  | (k, v) :: ms => "\x27" ++ k ++ "\x27: " ++ pyRepr v ++ ", " ++ pyReprMembers ms

end

/-- Python `str(v)` of a decoded JSON value: strings pass through,
other values render as their repr. -/
def pyStr : JVal → String
  | .str s => s
  | v => pyRepr v

/-! ## Tool Invocation Layer -/

/-- A Python control-flow outcome: a normal value, a raised `MCPError`, or
any other uncaught exception. -/
inductive PyOutcome (α : Type) where
  | ok (val : α) : PyOutcome α
  | mcpError (code : Int) (msg : String) : PyOutcome α
  | exc (msg : String) : PyOutcome α

/-- `str(arguments.get("chat", "")).strip()`. -/
def argChat (args : List (String × JVal)) : String :=
  pyStrip (pyStr (pyGetD args "chat" (.str "")))

/-- `str(arguments.get("message", "")).strip()`. -/
def argMessage (args : List (String × JVal)) : String :=
  pyStrip (pyStr (pyGetD args "message" (.str "")))

/-- `str(arguments.get("image_path", "")).strip()`. -/
def argImagePath (args : List (String × JVal)) : String :=
  pyStrip (pyStr (pyGetD args "image_path" (.str "")))

/-- `bool(arguments.get("confirm", False))`. -/
def argConfirm (args : List (String × JVal)) : Bool :=
  pyTruthy (pyGetD args "confirm" (.bool false))

/-- `bool(arguments.get("deep_recovery", defaults))`. -/
def argDeep (cfg : Config) (args : List (String × JVal)) : Bool :=
  pyTruthy (pyGetD args "deep_recovery" (.bool cfg.deepRecoveryDefault))

/-- `bool(arguments.get("keep_window", False))`. -/
def argKeepWindow (args : List (String × JVal)) : Bool :=
  pyTruthy (pyGetD args "keep_window" (.bool false))

/-- `bool(arguments.get("trace_ax", defaults))`. -/
def argTrace (cfg : Config) (args : List (String × JVal)) : Bool :=
  pyTruthy (pyGetD args "trace_ax" (.bool cfg.traceDefault))

/-- The optional boolean flags appended to every kmsg command line. -/
def boolFlags (deep keep trace : Bool) : List String :=
  (if deep then ["--deep-recovery"] else [])
  ++ (if keep then ["--keep-window"] else [])
  ++ (if trace then ["--trace-ax"] else [])

/-- `limit = max(1, min(limit, 100))`. -/
def clampLimit (n : Int) : Int := max 1 (min n 100)

/-- The command line built by `_call_kmsg_read` for a parsed limit `n`. -/
def readCmdOf (cfg : Config) (args : List (String × JVal)) (n : Int) : List String :=
  [cfg.kmsgBin, "read", argChat args, "--json", "--limit", intReprStr (clampLimit n)]
  ++ boolFlags (argDeep cfg args) (argKeepWindow args) (argTrace cfg args)

/-- The success path of `_call_kmsg_read` after a zero-exit run: parse the
JSON stdout, or report INVALID_JSON_OUTPUT; on a non-dict document the
attribute access raises. -/
def readSuccess (chat : String) (traceAx : Bool) (r : CommandResult) (effs : List Eff) :
    PyOutcome JVal × List Eff :=
  match loads r.stdout with
  | none =>
    (.ok (errorPayload "INVALID_JSON_OUTPUT" "kmsg returned non-JSON output for read --json"
        "Run kmsg read manually and confirm JSON-only stdout." r.stdout r.stderr r.latency_ms),
     effs)
  | some payload =>
    match payload with
    | .obj pkvs =>
      let metaBase := [("latency_ms", JVal.num (r.latency_ms : Int))]
      let meta := if traceAx && decide (pyStrip r.stderr ≠ "") then
          metaBase ++ [("stderr_trace", JVal.str r.stderr)]
        else metaBase
      (.ok (.obj [("ok", .bool true),
                  ("chat", pyGetD pkvs "chat" (.str chat)),
                  ("fetched_at", pyGetD pkvs "fetched_at" .null),
                  ("count", pyGetD pkvs "count" (.num 0)),
                  ("messages", pyGetD pkvs "messages" (.arr [])),
                  ("meta", .obj meta)]),
       effs)
    | _ => (.exc "AttributeError: payload has no attribute get", effs)

/-- `_call_kmsg_read`. -/
def callKmsgRead (w : World) (cfg : Config) (args : List (String × JVal)) :
    PyOutcome JVal × List Eff :=
  let chat := argChat args
  if chat = "" then
    (.ok (errorPayload "INVALID_ARGUMENT" "chat is required" "Provide a non-empty chat name."
        "" "" 0), [])
  else
    match pyInt (pyGetD args "limit" (.num 20)) with
    | none =>
      (.ok (errorPayload "INVALID_ARGUMENT" "limit must be an integer"
          "Use integer range 1..100 for limit." "" "" 0), [])
    | some rawLimit =>
      let deep := argDeep cfg args
      let cmd := readCmdOf cfg args rawLimit
      let timeoutSec := if deep then 15 else 8
      let first := runCommand (w.procRun cmd timeoutSec)
      let effs0 := [Eff.proc cmd timeoutSec]
      if first.timed_out then
        (.ok (errorPayload "PROCESS_TIMEOUT" "kmsg read timed out"
            "Increase stability (keep KakaoTalk open/focused) and retry."
            first.stdout first.stderr first.latency_ms), effs0)
      else if first.returncode ≠ 0 then
        let code := extractErrorCode (first.stdout ++ "\n" ++ first.stderr)
        if code = "CHAT_NOT_FOUND" ∧ deep = false then
          let retryCmd := cmd ++ ["--deep-recovery"]
          let retry := runCommand (w.procRun retryCmd 15)
          let effs1 := effs0 ++ [Eff.proc retryCmd 15]
          if retry.returncode = 0 ∧ retry.timed_out = false then
            readSuccess chat (argTrace cfg args) retry effs1
          else
            let retryCode := extractErrorCode (retry.stdout ++ "\n" ++ retry.stderr)
            (.ok (errorPayload retryCode "kmsg read failed after deep-recovery retry"
                (mapHint retryCode) retry.stdout retry.stderr retry.latency_ms), effs1)
        else
          (.ok (errorPayload code "kmsg read failed" (mapHint code)
              first.stdout first.stderr first.latency_ms), effs0)
      else
        readSuccess chat (argTrace cfg args) first effs0

/-- `_call_kmsg_send`. -/
def callKmsgSend (w : World) (cfg : Config) (args : List (String × JVal)) :
    PyOutcome JVal × List Eff :=
  let chat := argChat args
  let message := argMessage args
  let confirm := argConfirm args
  if chat = "" ∨ message = "" then
    (.ok (errorPayload "INVALID_ARGUMENT" "chat and message are required"
        "Provide both chat and message." "" "" 0), [])
  else if confirm then
    (.ok (errorPayload "CONFIRMATION_REQUIRED"
        "kmsg_send blocked because confirm=true requests pre-send confirmation"
        "Ask user for explicit approval, then call again with confirm=false (or omit confirm)."
        "" "" 0), [])
  else
    let cmd := [cfg.kmsgBin, "send", chat, message]
               ++ boolFlags (argDeep cfg args) (argKeepWindow args) (argTrace cfg args)
    let timeoutSec := if argDeep cfg args then 18 else 10
    let res := runCommand (w.procRun cmd timeoutSec)
    let effs := [Eff.proc cmd timeoutSec]
    if res.timed_out then
      (.ok (errorPayload "PROCESS_TIMEOUT" "kmsg send timed out"
          "Retry after ensuring KakaoTalk is responsive." res.stdout res.stderr res.latency_ms),
       effs)
    else if res.returncode ≠ 0 then
      let code := extractErrorCode (res.stdout ++ "\n" ++ res.stderr)
      (.ok (errorPayload code "kmsg send failed" (mapHint code)
          res.stdout res.stderr res.latency_ms), effs)
    else
      let metaBase := [("latency_ms", JVal.num (res.latency_ms : Int)),
                       ("stdout", JVal.str res.stdout)]
      let meta := if argTrace cfg args && decide (pyStrip res.stderr ≠ "") then
          metaBase ++ [("stderr_trace", JVal.str res.stderr)]
        else metaBase
      (.ok (.obj [("ok", .bool true), ("chat", .str chat), ("sent", .bool true),
                  ("meta", .obj meta)]), effs)

/-- `_call_kmsg_send_image`. -/
def callKmsgSendImage (w : World) (cfg : Config) (args : List (String × JVal)) :
    PyOutcome JVal × List Eff :=
  let chat := argChat args
  let imagePath := argImagePath args
  let confirm := argConfirm args
  if chat = "" ∨ imagePath = "" then
    (.ok (errorPayload "INVALID_ARGUMENT" "chat and image_path are required"
        "Provide both chat and image_path." "" "" 0), [])
  else if confirm then
    (.ok (errorPayload "CONFIRMATION_REQUIRED"
        "kmsg_send_image blocked because confirm=true requests pre-send confirmation"
        "Ask user for explicit approval, then call again with confirm=false (or omit confirm)."
        "" "" 0), [])
  else if w.isFile imagePath = false then
    (.ok (errorPayload "INVALID_ARGUMENT" "image_path must point to an existing file"
        "Provide a valid local image file path." "" "" 0), [Eff.fsIsFile imagePath])
  else
    let cmd := [cfg.kmsgBin, "send-image", chat, imagePath]
               ++ boolFlags (argDeep cfg args) (argKeepWindow args) (argTrace cfg args)
    let timeoutSec := if argDeep cfg args then 20 else 12
    let res := runCommand (w.procRun cmd timeoutSec)
    let effs := [Eff.fsIsFile imagePath, Eff.proc cmd timeoutSec]
    if res.timed_out then
      (.ok (errorPayload "PROCESS_TIMEOUT" "kmsg send-image timed out"
          "Retry after ensuring KakaoTalk is responsive." res.stdout res.stderr res.latency_ms),
       effs)
    else if res.returncode ≠ 0 then
      let code := extractErrorCode (res.stdout ++ "\n" ++ res.stderr)
      (.ok (errorPayload code "kmsg send-image failed" (mapHint code)
          res.stdout res.stderr res.latency_ms), effs)
    else
      let metaBase := [("latency_ms", JVal.num (res.latency_ms : Int)),
                       ("stdout", JVal.str res.stdout)]
      let meta := if argTrace cfg args && decide (pyStrip res.stderr ≠ "") then
          metaBase ++ [("stderr_trace", JVal.str res.stderr)]
        else metaBase
      (.ok (.obj [("ok", .bool true), ("chat", .str chat), ("sent", .bool true),
                  ("meta", .obj meta)]), effs)

/-- `_make_text_content`. -/
def mkTextContent (t : String) : JVal :=
  .arr [.obj [("type", .str "text"), ("text", .str t)]]

/-- The tail of `_handle_tools_call`: wrap a tool handler's payload into
the protocol result — pretty-printed text content, `isError` as the
truthiness-negation of the payload's `ok` field, and the payload itself
as `structuredContent`; a raised error or exception passes through, and a
non-dict payload makes the attribute access raise. -/
def wrapToolResult : PyOutcome JVal × List Eff → PyOutcome JVal × List Eff
  | (.ok (.obj pkvs), effs) =>
      (.ok (.obj [("content", mkTextContent (prettyDumps (.obj pkvs))),
                  ("isError", .bool (!(pyTruthy (pyGetD pkvs "ok" (.bool false))))),
                  ("structuredContent", .obj pkvs)]), effs)
  | (.ok _, effs) => (.exc "AttributeError: result has no attribute get", effs)
  | (po, effs) => (po, effs)

/-- `_handle_tools_call`: validate the arguments shape, dispatch to the tool
handler and wrap its payload into the protocol result. -/
def handleToolsCall (w : World) (cfg : Config) (params : List (String × JVal)) :
    PyOutcome JVal × List Eff :=
  let name := pyGetD params "name" .null
  match pyGetD params "arguments" (.obj []) with
  | .obj callArgs =>
    if isStrEq name "kmsg_read" then wrapToolResult (callKmsgRead w cfg callArgs)
    else if isStrEq name "kmsg_send" then wrapToolResult (callKmsgSend w cfg callArgs)
    else if isStrEq name "kmsg_send_image" then wrapToolResult (callKmsgSendImage w cfg callArgs)
    else (.mcpError (-32601) ("Unknown tool: " ++ pyStr name), [])
  | _ => (.mcpError (-32602) "tool arguments must be an object", [])

/-! ## RPC Dispatcher -/

/-- Protocol session state (`self.initialized`, `self.shutdown`). -/
structure ServerState where
  initialized : Bool
  shutdown : Bool
deriving Repr, DecidableEq

/-- `_json_rpc_result`. -/
def jsonRpcResult (reqId : JVal) (result : JVal) : JVal :=
  .obj [("jsonrpc", .str "2.0"), ("id", reqId), ("result", result)]

/-- `KmsgRunner.check_ready`: probe the binary with `--version` (2s) and
`status` (4s); report readiness and a detail document. -/
def checkReady (w : World) (cfg : Config) : (Bool × JVal) × List Eff :=
  let versionRun := runCommand (w.procRun [cfg.kmsgBin, "--version"] 2)
  if versionRun.returncode ≠ 0 then
    ((false, .obj [("stage", .str "version"), ("message", .str "kmsg binary not executable"),
                   ("stdout", .str versionRun.stdout), ("stderr", .str versionRun.stderr),
                   ("kmsg_bin", .str cfg.kmsgBin)]),
     [Eff.proc [cfg.kmsgBin, "--version"] 2])
  else
    let statusRun := runCommand (w.procRun [cfg.kmsgBin, "status"] 4)
    if statusRun.returncode ≠ 0 then
      ((false, .obj [("stage", .str "status"), ("message", .str "kmsg status check failed"),
                     ("stdout", .str statusRun.stdout), ("stderr", .str statusRun.stderr),
                     ("kmsg_bin", .str cfg.kmsgBin)]),
       [Eff.proc [cfg.kmsgBin, "--version"] 2, Eff.proc [cfg.kmsgBin, "status"] 4])
    else
      ((true, .obj [("kmsg_bin", .str cfg.kmsgBin), ("version", .str (pyStrip versionRun.stdout))]),
       [Eff.proc [cfg.kmsgBin, "--version"] 2, Eff.proc [cfg.kmsgBin, "status"] 4])

/-- A `{"type": "boolean", "default": d, "description": ...}` schema node. -/
def boolSchema (dflt : Bool) (desc : String) : JVal :=
  .obj [("type", .str "boolean"), ("default", .bool dflt), ("description", .str desc)]

/-- `_tool_definitions`: the static catalog of the three capabilities. -/
def toolDefinitions (cfg : Config) : List JVal :=
  [.obj [("name", .str "kmsg_read"),
         ("description", .str "Read recent KakaoTalk messages from a chat via kmsg."),
         ("inputSchema", .obj [
            ("type", .str "object"),
            ("properties", .obj [
               ("chat", .obj [("type", .str "string"),
                              ("description", .str "Chat room or user name")]),
               ("limit", .obj [("type", .str "integer"), ("minimum", .num 1),
                               ("maximum", .num 100), ("default", .num 20)]),
               ("deep_recovery", boolSchema cfg.deepRecoveryDefault
                  "Enable deep recovery mode for window resolution"),
               ("keep_window", boolSchema false "Keep auto-opened KakaoTalk window"),
               ("trace_ax", boolSchema cfg.traceDefault "Include AX tracing logs")]),
            ("required", .arr [.str "chat"]),
            ("additionalProperties", .bool false)])],
   .obj [("name", .str "kmsg_send"),
         ("description", .str
            "Send a KakaoTalk message via kmsg. Default sends immediately; confirm=true triggers confirmation-required response."),
         ("inputSchema", .obj [
            ("type", .str "object"),
            ("properties", .obj [
               ("chat", .obj [("type", .str "string"),
                              ("description", .str "Chat room or user name")]),
               ("message", .obj [("type", .str "string"),
                                 ("description", .str "Message body")]),
               ("confirm", boolSchema false
                  "If true, do not send and return CONFIRMATION_REQUIRED"),
               ("deep_recovery", boolSchema cfg.deepRecoveryDefault
                  "Enable deep recovery mode for window resolution"),
               ("keep_window", boolSchema false "Keep auto-opened KakaoTalk window"),
               ("trace_ax", boolSchema cfg.traceDefault "Include AX tracing logs")]),
            ("required", .arr [.str "chat", .str "message"]),
            ("additionalProperties", .bool false)])],
   .obj [("name", .str "kmsg_send_image"),
         ("description", .str
            "Send an image to a KakaoTalk chat via kmsg. Default sends immediately; confirm=true triggers confirmation-required response."),
         ("inputSchema", .obj [
            ("type", .str "object"),
            ("properties", .obj [
               ("chat", .obj [("type", .str "string"),
                              ("description", .str "Chat room or user name")]),
               ("image_path", .obj [("type", .str "string"),
                                    ("description", .str "Path to the image file")]),
               ("confirm", boolSchema false
                  "If true, do not send and return CONFIRMATION_REQUIRED"),
               ("deep_recovery", boolSchema cfg.deepRecoveryDefault
                  "Enable deep recovery mode for window resolution"),
               ("keep_window", boolSchema false "Keep auto-opened KakaoTalk window"),
               ("trace_ax", boolSchema cfg.traceDefault "Include AX tracing logs")]),
            ("required", .arr [.str "chat", .str "image_path"]),
            ("additionalProperties", .bool false)])]]

/-- `_handle_request`: method dispatch over the session state machine.
Returns the outcome (a response, no response, a raised `MCPError`, or an
uncaught exception), the new session state, and the side effects. -/
def handleRequest (w : World) (cfg : Config) (st : ServerState)
    (request : List (String × JVal)) : PyOutcome (Option JVal) × ServerState × List Eff :=
  let method := pyGetD request "method" .null
  let reqId := pyGetD request "id" .null
  if isStrEq method "initialize" then
    let st1 : ServerState := { st with initialized := true }
    let ready := checkReady w cfg
    let detail := if ready.1.1 then ready.1.2 else
      match ready.1.2 with
      | .obj dkvs =>
        .obj (dkvs ++ [("note", .str "MCP server started, but kmsg readiness check failed")])
      | other => other
    (.ok (some (jsonRpcResult reqId (.obj [
        ("protocolVersion", .str "2024-11-05"),
        ("capabilities", .obj [("tools", .obj [])]),
        ("serverInfo", .obj [("name", .str "openclaw-kmsg-mcp"),
                             ("version", .str cfg.serverVersion)]),
        ("instructions", .str
           "Use kmsg_read for read-only operations. Use kmsg_send and kmsg_send_image with confirm=false (or omitted) for sending. Use confirm=true to intentionally require a confirmation step."),
        ("meta", .obj [("startup_check", detail)])]))),
     st1, ready.2)
  else if isStrEq method "notifications/initialized" then
    (.ok none, st, [])
  else if isStrEq method "ping" then
    (.ok (some (jsonRpcResult reqId (.obj []))), st, [])
  else if st.initialized = false then
    (.mcpError (-32002) "Server not initialized", st, [])
  else if isStrEq method "tools/list" then
    (.ok (some (jsonRpcResult reqId (.obj [("tools", .arr (toolDefinitions cfg))]))), st, [])
  else if isStrEq method "tools/call" then
    match pyGetD request "params" (.obj []) with
    | .obj params =>
      match handleToolsCall w cfg params with
      | (.ok r, effs) => (.ok (some (jsonRpcResult reqId r)), st, effs)
      | (.mcpError c m, effs) => (.mcpError c m, st, effs)
      | (.exc m, effs) => (.exc m, st, effs)
    | _ => (.exc "AttributeError: params has no attribute get", st, [])
  else if isStrEq method "shutdown" then
    (.ok (some (jsonRpcResult reqId (.obj []))), { st with shutdown := true }, [])
  else if isStrEq method "exit" then
    (.ok none, { st with shutdown := true }, [])
  else
    (.mcpError (-32601) ("Method not found: " ++ pyStr method), st, [])

/-! ## Message Framing Codec -/

/-- UTF-8 byte length of a character list (`len` of the encoded body). -/
def utf8Len : List Char → Nat
  | [] => 0
  | c :: cs => c.utf8Size + utf8Len cs

/-- The header block emitted by `_write_message` for a body of `n` bytes:
`Content-Length: n`, CR LF, blank line. -/
def headerChars (n : Nat) : List Char :=
  "Content-Length: ".data ++ natRepr n ++ ['\r', '\n', '\r', '\n']

/-- `_write_message`: serialize the payload, emit the header block and then
the body, as one contiguous character stream (bytes are tracked through
each character's UTF-8 size). -/
def writeMessageStream (v : JVal) : List Char :=
  headerChars (utf8Len (jser v)) ++ jser v

/-- `readline()`: everything up to and including the first newline. -/
def takeLine : List Char → List Char × List Char
  | [] => ([], [])
  | c :: cs =>
    if c = '\n' then ([c], cs)
    else
      let p := takeLine cs
      (c :: p.1, p.2)

/-- `decoded.partition(":")`: split at the first colon, `none` when there is
no colon (the header line is then skipped). -/
def splitColon : List Char → Option (List Char × List Char)
  | [] => none
  | c :: cs =>
    if c = ':' then some ([], cs)
    else (splitColon cs).map (fun p => (c :: p.1, p.2))

/-- `headers[key] = value`: dict assignment, modelled as append with
last-wins lookup. -/
def setHeader (hs : List (List Char × List Char)) (k v : List Char) :
    List (List Char × List Char) :=
  hs ++ [(k, v)]

/-- Dict lookup over the header assignments (last assignment wins). -/
def hLookup (hs : List (List Char × List Char)) (k : List Char) : Option (List Char) :=
  ((hs.reverse).find? (fun p => p.1 == k)).map (fun p => p.2)

/-- `stdin.buffer.read(n)`: take characters while their cumulative UTF-8
size fits in `n` bytes. -/
def takeBytes : Nat → List Char → List Char × List Char
  | _, [] => ([], [])
  | n, c :: cs =>
    if c.utf8Size ≤ n then
      let p := takeBytes (n - c.utf8Size) cs
      (c :: p.1, p.2)
    else ([], c :: cs)

/-- Outcome of the framing read before JSON decoding: a raw body (with the
remaining stream), no message (end of stream, zero length, or empty body),
or an uncaught exception from `int()` on a malformed length. -/
inductive RawRead where
  | body (s : String) (rest : List Char) : RawRead
  | noMsg : RawRead
  | excRead (msg : String) : RawRead

/-- After the blank line: read `content-length` (default `"0"`), refuse
nonpositive lengths, then take exactly that many bytes as the body. -/
def readAfterHeaders (hs : List (List Char × List Char)) (rest : List Char) : RawRead :=
  let clStr : List Char := (hLookup hs "content-length".data).getD "0".data
  match pyIntOfStr ⟨clStr⟩ with
  | none => .excRead "ValueError: invalid literal for int"
  | some n =>
    if n ≤ 0 then .noMsg
    else
      let bp := takeBytes n.toNat rest
      if bp.1 = [] then .noMsg
      else .body ⟨bp.1⟩ bp.2

/-- The header loop of `_read_message`: read lines until a blank line,
collecting `key: value` pairs (case-insensitive keys); end of stream means
no message. -/
def readRawLoop : Nat → List Char → List (List Char × List Char) → RawRead
  | 0, _, _ => .excRead "fuel exhausted"
  | fuel + 1, stream, hs =>
    let p := takeLine stream
    if p.1 = [] then .noMsg
    else if p.1 = ['\r', '\n'] || p.1 = ['\n'] then
      readAfterHeaders hs p.2
    else
      let decoded := trimBoth p.1
      if decoded = [] then readRawLoop fuel p.2 hs
      else
        match splitColon decoded with
        | none => readRawLoop fuel p.2 hs
        | some (k, v) =>
          readRawLoop fuel p.2 (setHeader hs (lowerList (trimBoth k)) (trimBoth v))

/-- The framing read of `_read_message`, up to (but not including) JSON
decoding of the body. -/
def readRaw (stream : List Char) : RawRead :=
  readRawLoop (stream.length + 1) stream []

/-- Result of `_read_message`: a decoded message (with the rest of the
stream), no message, or an uncaught exception. -/
inductive ReadMsg where
  | msgVal (v : JVal) (rest : List Char) : ReadMsg
  | noMsg : ReadMsg
  | excRead (msg : String) : ReadMsg

/-- `_read_message`: framing read followed by `json.loads`; an undecodable
body yields no message. -/
def readMessage (stream : List Char) : ReadMsg :=
  match readRaw stream with
  | .body s rest =>
    match loads s with
    | some v => .msgVal v rest
    | none => .noMsg
  | .noMsg => .noMsg
  | .excRead m => .excRead m

/-! ## Concrete fixtures for witnesses and counterexamples -/

/-- A fixed startup configuration. -/
def cfg0 : Config := ⟨"kmsg", false, false, "1.0"⟩

/-- A world whose process always completes successfully. -/
def wDone : World := ⟨fun _ _ => .completed 0 "out" "err" 5, fun _ => true⟩

/-- A world where every run fails with a `SEARCH_MISS` marker (the first
read attempt runs at the 8-second timeout, the retry at 15). -/
def wMiss : World :=
  ⟨fun _ t => if t = 8 then .completed 1 "" "SEARCH_MISS" 10
              else .completed 1 "" "SEARCH_MISS" 20,
   fun _ => true⟩

/-- A world where the first read attempt fails with `SEARCH_MISS` and the
deep-recovery retry times out with partial output. -/
def wMissTimeout : World :=
  ⟨fun _ t => if t = 8 then .completed 1 "" "SEARCH_MISS" 10
              else .timedOut "partial" "perr" 15000,
   fun _ => true⟩

/-- A world where every run times out with partial output. -/
def wTimeout : World := ⟨fun _ _ => .timedOut "po" "pe" 8000, fun _ => true⟩

/-- A world where no file exists. -/
def wNoFile : World := ⟨fun _ _ => .completed 0 "" "" 5, fun _ => false⟩

/-- The `error.code` of a handler outcome, when it returned a payload. -/
def resultCode (r : PyOutcome JVal) : Option String :=
  match r with
  | .ok p => payloadCode p
  | _ => none

/-- The `meta.latency_ms` of a handler outcome, when it returned a payload. -/
def resultLatency (r : PyOutcome JVal) : Option Int :=
  match r with
  | .ok p => payloadLatency p
  | _ => none

/-- The `ok` field of a tool payload, when the payload is an object. -/
def payloadOk (p : JVal) : Option JVal :=
  match p with
  | .obj kvs => jlookup kvs "ok"
  | _ => none

/-- The `error.message` field of a tool payload, when present. -/
def payloadMessage (p : JVal) : Option String :=
  match p with
  | .obj kvs =>
    match jlookup kvs "error" with
    | some (.obj ekvs) =>
      match jlookup ekvs "message" with
      | some (.str s) => some s
      | _ => none
    | _ => none
  | _ => none

/-- The `error.message` of a handler outcome, when it returned a payload. -/
def resultMessage (r : PyOutcome JVal) : Option String :=
  match r with
  | .ok p => payloadMessage p
  | _ => none

/-- Arguments with both required send fields present and `confirm=true`. -/
def argsConfirm : List (String × JVal) :=
  [("chat", .str "A"), ("message", .str "B"), ("image_path", .str "p"), ("confirm", .bool true)]

/-- Arguments consisting only of `confirm=true` (required fields missing). -/
def argsOnlyConfirm : List (String × JVal) := [("confirm", .bool true)]

/-- A `tools/call` request envelope. -/
def reqToolsCall : List (String × JVal) := [("method", .str "tools/call"), ("id", .num 1)]

/-- A `notifications/initialized` request envelope. -/
def reqNotifInit : List (String × JVal) := [("method", .str "notifications/initialized")]

/-- Read arguments with only a chat name. -/
def argsChatA : List (String × JVal) := [("chat", .str "A")]

/-- Read arguments with an out-of-range limit. -/
def argsLimit500 : List (String × JVal) := [("chat", .str "A"), ("limit", .num 500)]

/-- `tools/call` params invoking `kmsg_send` with valid arguments. -/
def paramsSend : List (String × JVal) :=
  [("name", .str "kmsg_send"), ("arguments", .obj [("chat", .str "A"), ("message", .str "B")])]

/-! ## Theorems -/

/-- The code field of an error envelope. -/
theorem payloadCode_errorPayload (c m h a b : String) (l : Nat) :
    payloadCode (errorPayload c m h a b l) = some c := rfl

/-- The message field of an error envelope. -/
theorem payloadMessage_errorPayload (c m h a b : String) (l : Nat) :
    payloadMessage (errorPayload c m h a b l) = some m := rfl

/-- The latency field of an error envelope. -/
theorem payloadLatency_errorPayload (c m h a b : String) (l : Nat) :
    payloadLatency (errorPayload c m h a b l) = some (l : Int) := rfl

/-- C5: the Process Executor is total over its declared outcomes — every
possible run outcome is represented as a `CommandResult` value, never a
propagated error: a startup failure returns the synthetic result with
exit code 127, empty stdout, the failure description as stderr and
`timed_out = false`; a timeout returns exit code 124, `timed_out = true`
and the partial output; normal completion passes everything through. -/
theorem C5_executor_total :
    (∀ msg lat, runCommand (.startFailure msg lat) =
      { returncode := 127, stdout := "", stderr := msg, latency_ms := lat, timed_out := false }) ∧
    (∀ out err lat, runCommand (.timedOut out err lat) =
      { returncode := 124, stdout := out, stderr := err, latency_ms := lat, timed_out := true }) ∧
    (∀ rc out err lat, runCommand (.completed rc out err lat) =
      { returncode := rc, stdout := out, stderr := err, latency_ms := lat, timed_out := false }) :=
  ⟨fun _ _ => rfl, fun _ _ _ => rfl, fun _ _ _ _ => rfl⟩

/-- C6: the classifier returns exactly one of five codes, chosen by first
match in fixed priority order — (1) case-insensitive "no such file or
directory" / "not found" (binary absent), (2) the `WINDOW_NOT_READY`
marker, (3) the `SEARCH_MISS` marker, (4) the accessibility-permission
phrases including the localized one, (5) otherwise the unknown-failure
code — and the hint table is a fixed pure mapping. -/
theorem C6_classifier_priority :
    (∀ s : String,
      extractErrorCode s = "KMSG_BIN_NOT_FOUND" ∨
      extractErrorCode s = "KAKAO_WINDOW_UNAVAILABLE" ∨
      extractErrorCode s = "CHAT_NOT_FOUND" ∨
      extractErrorCode s = "ACCESSIBILITY_PERMISSION_DENIED" ∨
      extractErrorCode s = "UNKNOWN_EXEC_FAILURE") ∧
    (∀ s : String, extractErrorCode s = "KMSG_BIN_NOT_FOUND" ↔
      (strContains (strLower s) "no such file or directory"
       || strContains (strLower s) "not found") = true) ∧
    (∀ s : String, extractErrorCode s = "KAKAO_WINDOW_UNAVAILABLE" ↔
      ((strContains (strLower s) "no such file or directory"
        || strContains (strLower s) "not found") = false ∧
       strContains s "WINDOW_NOT_READY" = true)) ∧
    (∀ s : String, extractErrorCode s = "CHAT_NOT_FOUND" ↔
      ((strContains (strLower s) "no such file or directory"
        || strContains (strLower s) "not found") = false ∧
       strContains s "WINDOW_NOT_READY" = false ∧
       strContains s "SEARCH_MISS" = true)) ∧
    (∀ s : String, extractErrorCode s = "ACCESSIBILITY_PERMISSION_DENIED" ↔
      ((strContains (strLower s) "no such file or directory"
        || strContains (strLower s) "not found") = false ∧
       strContains s "WINDOW_NOT_READY" = false ∧
       strContains s "SEARCH_MISS" = false ∧
       (strContains s "Accessibility" || strContains s "손쉬운 사용") = true)) ∧
    (∀ s : String, extractErrorCode s = "UNKNOWN_EXEC_FAILURE" ↔
      ((strContains (strLower s) "no such file or directory"
        || strContains (strLower s) "not found") = false ∧
       strContains s "WINDOW_NOT_READY" = false ∧
       strContains s "SEARCH_MISS" = false ∧
       (strContains s "Accessibility" || strContains s "손쉬운 사용") = false)) ∧
    mapHint "KMSG_BIN_NOT_FOUND" = "Set a valid KMSG_BIN path or install kmsg into PATH." ∧
    mapHint "KAKAO_WINDOW_UNAVAILABLE" =
      "KakaoTalk window was not ready. Open KakaoTalk and retry (or enable deep_recovery)." ∧
    mapHint "CHAT_NOT_FOUND" =
      "Chat was not found in search results. Verify chat name spacing and visibility." ∧
    mapHint "ACCESSIBILITY_PERMISSION_DENIED" =
      "Grant Accessibility permission in System Settings > Privacy & Security > Accessibility." ∧
    mapHint "UNKNOWN_EXEC_FAILURE" =
      "Check raw_stdout/raw_stderr and rerun with trace_ax=true for details." := by
  refine ⟨?_, ?_, ?_, ?_, ?_, ?_, rfl, rfl, rfl, rfl, rfl⟩ <;> intro s <;>
    simp only [extractErrorCode] <;>
    cases hb1 : (strContains (strLower s) "no such file or directory"
                 || strContains (strLower s) "not found") <;>
    cases hb2 : strContains s "WINDOW_NOT_READY" <;>
    cases hb3 : strContains s "SEARCH_MISS" <;>
    cases hb4 : (strContains s "Accessibility" || strContains s "손쉬운 사용") <;>
    simp_all

/-- C1 (counterexample): a send call whose arguments contain `confirm=true`
but omit the required fields returns INVALID_ARGUMENT, not
CONFIRMATION_REQUIRED — the required-field validation runs before the
confirm gate. -/
theorem C1_counterexample :
    argConfirm argsOnlyConfirm = true ∧
    resultCode (callKmsgSend wDone cfg0 argsOnlyConfirm).1 = some "INVALID_ARGUMENT" ∧
    resultCode (callKmsgSend wDone cfg0 argsOnlyConfirm).1 ≠ some "CONFIRMATION_REQUIRED" :=
  ⟨rfl, rfl, by decide⟩

/-- C1 (amended): for the send and send-image capabilities, a call whose
arguments contain `confirm=true` never starts a process and reports
latency 0; when the required fields are additionally non-empty the error
code is exactly CONFIRMATION_REQUIRED (with empty required fields the
validation produces INVALID_ARGUMENT first, still with no process and
latency 0).  The read capability has no confirm gate. -/
theorem C1_amended_confirm_gate :
    ∀ (w : World) (cfg : Config) (args : List (String × JVal)),
      argConfirm args = true →
      ((callKmsgSend w cfg args).2 = [] ∧
        resultLatency (callKmsgSend w cfg args).1 = some 0 ∧
        (argChat args ≠ "" → argMessage args ≠ "" →
          resultCode (callKmsgSend w cfg args).1 = some "CONFIRMATION_REQUIRED")) ∧
      ((callKmsgSendImage w cfg args).2 = [] ∧
        resultLatency (callKmsgSendImage w cfg args).1 = some 0 ∧
        (argChat args ≠ "" → argImagePath args ≠ "" →
          resultCode (callKmsgSendImage w cfg args).1 = some "CONFIRMATION_REQUIRED")) := by
  intro w cfg args hconf
  constructor
  · by_cases hv : argChat args = "" ∨ argMessage args = ""
    · have hs : callKmsgSend w cfg args =
          (.ok (errorPayload "INVALID_ARGUMENT" "chat and message are required"
              "Provide both chat and message." "" "" 0), []) := by
        simp only [callKmsgSend]
        rw [if_pos hv]
      rw [hs]
      exact ⟨rfl, rfl, fun h1 h2 => absurd hv (by simp [h1, h2])⟩
    · have hs : callKmsgSend w cfg args =
          (.ok (errorPayload "CONFIRMATION_REQUIRED"
              "kmsg_send blocked because confirm=true requests pre-send confirmation"
              "Ask user for explicit approval, then call again with confirm=false (or omit confirm)."
              "" "" 0), []) := by
        simp only [callKmsgSend]
        rw [if_neg hv, if_pos hconf]
      rw [hs]
      exact ⟨rfl, rfl, fun _ _ => rfl⟩
  · by_cases hv : argChat args = "" ∨ argImagePath args = ""
    · have hs : callKmsgSendImage w cfg args =
          (.ok (errorPayload "INVALID_ARGUMENT" "chat and image_path are required"
              "Provide both chat and image_path." "" "" 0), []) := by
        simp only [callKmsgSendImage]
        rw [if_pos hv]
      rw [hs]
      exact ⟨rfl, rfl, fun h1 h2 => absurd hv (by simp [h1, h2])⟩
    · have hs : callKmsgSendImage w cfg args =
          (.ok (errorPayload "CONFIRMATION_REQUIRED"
              "kmsg_send_image blocked because confirm=true requests pre-send confirmation"
              "Ask user for explicit approval, then call again with confirm=false (or omit confirm)."
              "" "" 0), []) := by
        simp only [callKmsgSendImage]
        rw [if_neg hv, if_pos hconf]
      rw [hs]
      exact ⟨rfl, rfl, fun _ _ => rfl⟩

/-- C1 (witness): with both required fields present and `confirm=true`,
send and send-image both return CONFIRMATION_REQUIRED with an empty
effect trace. -/
theorem C1_amended_witness :
    resultCode (callKmsgSend wDone cfg0 argsConfirm).1 = some "CONFIRMATION_REQUIRED" ∧
    (callKmsgSend wDone cfg0 argsConfirm).2 = [] ∧
    resultCode (callKmsgSendImage wDone cfg0 argsConfirm).1 = some "CONFIRMATION_REQUIRED" ∧
    (callKmsgSendImage wDone cfg0 argsConfirm).2 = [] := by
  have h := C1_amended_confirm_gate wDone cfg0 argsConfirm rfl
  exact ⟨h.1.2.2 (by decide) (by decide), h.1.1, h.2.2.2 (by decide) (by decide), h.2.1⟩

/-- C3 (counterexample): while the session is uninitialized, dispatching
the method `notifications/initialized` does not produce the -32002
protocol error — it is silently accepted as a notification (no response),
contradicting the claim that only `initialize` and `ping` are accepted. -/
theorem C3_counterexample :
    (handleRequest wDone cfg0 ⟨false, false⟩ reqNotifInit).1 = .ok none ∧
    (handleRequest wDone cfg0 ⟨false, false⟩ reqNotifInit).1 ≠
      .mcpError (-32002) "Server not initialized" := by
  refine ⟨rfl, ?_⟩
  have h : (handleRequest wDone cfg0 ⟨false, false⟩ reqNotifInit).1 =
      PyOutcome.ok none := rfl
  rw [h]
  simp

/-- C3 (amended): while the session is uninitialized, only `initialize`,
`ping` and the `notifications/initialized` notification are handled; any
other method (in particular `tools/call`) yields the protocol error
-32002 "Server not initialized", leaves the session state unchanged, and
performs no side effect — the Tool Invocation Layer is never reached. -/
theorem C3_amended_uninitialized_gate :
    ∀ (w : World) (cfg : Config) (st : ServerState) (request : List (String × JVal)),
      st.initialized = false →
      isStrEq (pyGetD request "method" .null) "initialize" = false →
      isStrEq (pyGetD request "method" .null) "notifications/initialized" = false →
      isStrEq (pyGetD request "method" .null) "ping" = false →
      handleRequest w cfg st request = (.mcpError (-32002) "Server not initialized", st, []) := by
  intro w cfg st req hinit h1 h2 h3
  simp only [handleRequest, h1, h2, h3, hinit]
  simp

/-- C3 (witness): a `tools/call` request on the fresh session yields
exactly the -32002 error with no side effects. -/
theorem C3_amended_witness :
    handleRequest wDone cfg0 ⟨false, false⟩ reqToolsCall =
      (.mcpError (-32002) "Server not initialized", ⟨false, false⟩, []) :=
  C3_amended_uninitialized_gate wDone cfg0 ⟨false, false⟩ reqToolsCall rfl rfl rfl rfl

/-- C9: in the send-image capability the confirm gate runs before the
local-file existence check: with non-empty chat and image_path and
`confirm=true` the call returns CONFIRMATION_REQUIRED with an empty
effect trace (the filesystem is never consulted, no process started), for
every world — in particular when the file does not exist; and conversely,
the nonexistent-file INVALID_ARGUMENT envelope can only be produced by a
call whose confirm flag evaluates to false. -/
theorem C9_confirm_before_file_check :
    (∀ (w : World) (cfg : Config) (args : List (String × JVal)),
      argChat args ≠ "" → argImagePath args ≠ "" → argConfirm args = true →
      callKmsgSendImage w cfg args =
        (.ok (errorPayload "CONFIRMATION_REQUIRED"
            "kmsg_send_image blocked because confirm=true requests pre-send confirmation"
            "Ask user for explicit approval, then call again with confirm=false (or omit confirm)."
            "" "" 0), [])) ∧
    (∀ (w : World) (cfg : Config) (args : List (String × JVal)),
      resultMessage (callKmsgSendImage w cfg args).1 =
        some "image_path must point to an existing file" →
      argConfirm args = false) := by
  constructor
  · intro w cfg args h1 h2 hconf
    have hv : ¬(argChat args = "" ∨ argImagePath args = "") := by simp [h1, h2]
    simp only [callKmsgSendImage]
    rw [if_neg hv, if_pos hconf]
  · intro w cfg args h
    by_contra hc
    have hconf : argConfirm args = true := by
      cases hcf : argConfirm args
      · exact absurd hcf hc
      · rfl
    by_cases hv : argChat args = "" ∨ argImagePath args = ""
    · have hs : callKmsgSendImage w cfg args =
          (.ok (errorPayload "INVALID_ARGUMENT" "chat and image_path are required"
              "Provide both chat and image_path." "" "" 0), []) := by
        simp only [callKmsgSendImage]
        rw [if_pos hv]
      rw [hs] at h
      have : some "chat and image_path are required" =
          some "image_path must point to an existing file" := h
      injection this with hh
      exact absurd hh (by decide)
    · have hs : callKmsgSendImage w cfg args =
          (.ok (errorPayload "CONFIRMATION_REQUIRED"
              "kmsg_send_image blocked because confirm=true requests pre-send confirmation"
              "Ask user for explicit approval, then call again with confirm=false (or omit confirm)."
              "" "" 0), []) := by
        simp only [callKmsgSendImage]
        rw [if_neg hv, if_pos hconf]
      rw [hs] at h
      have : some "kmsg_send_image blocked because confirm=true requests pre-send confirmation" =
          some "image_path must point to an existing file" := h
      injection this with hh
      exact absurd hh (by decide)

/-- C9 (witness): with a nonexistent file, non-empty fields and
`confirm=true`, the result is CONFIRMATION_REQUIRED and the effect trace
is empty even though the file does not exist. -/
theorem C9_witness :
    callKmsgSendImage wNoFile cfg0 argsConfirm =
      (.ok (errorPayload "CONFIRMATION_REQUIRED"
          "kmsg_send_image blocked because confirm=true requests pre-send confirmation"
          "Ask user for explicit approval, then call again with confirm=false (or omit confirm)."
          "" "" 0), []) ∧
    wNoFile.isFile (argImagePath argsConfirm) = false :=
  ⟨C9_confirm_before_file_check.1 wNoFile cfg0 argsConfirm (by decide) (by decide) rfl, rfl⟩

/-- The success path keeps the effect trace it was given. -/
theorem readSuccess_effs (chat : String) (t : Bool) (r : CommandResult) (effs : List Eff) :
    (readSuccess chat t r effs).2 = effs := by
  unfold readSuccess
  cases loads r.stdout with
  | none => rfl
  | some p => cases p <;> rfl

/-- C7: for every read call whose limit argument parses as an integer (and
whose chat is non-empty so that execution is reached), the process is
invoked — never rejected — with the limit clamped into [1, 100]: the first
effect is the read command carrying `str(max(1, min(limit, 100)))`, where
values below 1 become 1, values above 100 become 100, and in-range values
pass through unchanged. -/
theorem C7_limit_clamped :
    ∀ (w : World) (cfg : Config) (args : List (String × JVal)) (n : Int),
      argChat args ≠ "" →
      pyInt (pyGetD args "limit" (.num 20)) = some n →
      (∃ tail, (callKmsgRead w cfg args).2 =
          Eff.proc (readCmdOf cfg args n) (if argDeep cfg args then 15 else 8) :: tail) ∧
      readCmdOf cfg args n =
        [cfg.kmsgBin, "read", argChat args, "--json", "--limit", intReprStr (clampLimit n)]
        ++ boolFlags (argDeep cfg args) (argKeepWindow args) (argTrace cfg args) ∧
      (n < 1 → clampLimit n = 1) ∧
      (100 < n → clampLimit n = 100) ∧
      (1 ≤ n → n ≤ 100 → clampLimit n = n) := by
  intro w cfg args n hchat hlim
  refine ⟨?_, rfl, ?_, ?_, ?_⟩
  · simp only [callKmsgRead, hlim]
    rw [if_neg hchat]
    split <;> (try split) <;> (try split) <;> (try split) <;> (try split)
    all_goals
      first
        | exact ⟨_, rfl⟩
        | (rw [readSuccess_effs]; exact ⟨_, rfl⟩)
  · intro h
    simp only [clampLimit]
    omega
  · intro h
    simp only [clampLimit]
    omega
  · intro h1 h2
    simp only [clampLimit]
    omega

/-- C7 (witness): an input limit of 500 is not rejected; the process is
started with the clamped value 100. -/
theorem C7_witness :
    (∃ tail, (callKmsgRead wDone cfg0 argsLimit500).2 =
        Eff.proc (readCmdOf cfg0 argsLimit500 500) 8 :: tail) ∧
    clampLimit 500 = 100 := by
  have h := C7_limit_clamped wDone cfg0 argsLimit500 500 (by decide) rfl
  exact ⟨h.1, h.2.2.2.1 (by decide)⟩

/-- C2: the retry policy.  (1) When a read call's first run (at the
8-second timeout, deep-recovery off) exits nonzero without timing out and
its combined output classifies as CHAT_NOT_FOUND, exactly one retry is
issued — the same command with `--deep-recovery` appended, at the
15-second timeout — and the retry is final: the process trace is exactly
those two invocations, and any retry failure (nonzero exit or timeout)
becomes the error envelope built from the retry's classification with no
further run.  (2) Whenever the first run's classification is not
CHAT_NOT_FOUND, or deep-recovery was already on, the read call makes
exactly one process invocation.  (3) The send and send-image capabilities
never make more than one process invocation. -/
theorem C2_retry_policy :
    (∀ (w : World) (cfg : Config) (args : List (String × JVal)) (n : Int),
      argChat args ≠ "" →
      pyInt (pyGetD args "limit" (.num 20)) = some n →
      argDeep cfg args = false →
      (runCommand (w.procRun (readCmdOf cfg args n) 8)).timed_out = false →
      (runCommand (w.procRun (readCmdOf cfg args n) 8)).returncode ≠ 0 →
      extractErrorCode ((runCommand (w.procRun (readCmdOf cfg args n) 8)).stdout ++ "\n"
        ++ (runCommand (w.procRun (readCmdOf cfg args n) 8)).stderr) = "CHAT_NOT_FOUND" →
      procCalls (callKmsgRead w cfg args).2 =
        [(readCmdOf cfg args n, 8), (readCmdOf cfg args n ++ ["--deep-recovery"], 15)] ∧
      (¬((runCommand (w.procRun (readCmdOf cfg args n ++ ["--deep-recovery"]) 15)).returncode = 0
          ∧ (runCommand (w.procRun (readCmdOf cfg args n ++ ["--deep-recovery"]) 15)).timed_out
            = false) →
        (callKmsgRead w cfg args).1 =
          .ok (errorPayload
            (extractErrorCode
              ((runCommand (w.procRun (readCmdOf cfg args n ++ ["--deep-recovery"]) 15)).stdout
               ++ "\n"
               ++ (runCommand (w.procRun (readCmdOf cfg args n ++ ["--deep-recovery"]) 15)).stderr))
            "kmsg read failed after deep-recovery retry"
            (mapHint (extractErrorCode
              ((runCommand (w.procRun (readCmdOf cfg args n ++ ["--deep-recovery"]) 15)).stdout
               ++ "\n"
               ++ (runCommand (w.procRun (readCmdOf cfg args n ++ ["--deep-recovery"]) 15)).stderr)))
            (runCommand (w.procRun (readCmdOf cfg args n ++ ["--deep-recovery"]) 15)).stdout
            (runCommand (w.procRun (readCmdOf cfg args n ++ ["--deep-recovery"]) 15)).stderr
            (runCommand (w.procRun (readCmdOf cfg args n ++ ["--deep-recovery"]) 15)).latency_ms))) ∧
    (∀ (w : World) (cfg : Config) (args : List (String × JVal)) (n : Int),
      argChat args ≠ "" →
      pyInt (pyGetD args "limit" (.num 20)) = some n →
      (extractErrorCode
          ((runCommand (w.procRun (readCmdOf cfg args n)
              (if argDeep cfg args then 15 else 8))).stdout ++ "\n"
           ++ (runCommand (w.procRun (readCmdOf cfg args n)
              (if argDeep cfg args then 15 else 8))).stderr) ≠ "CHAT_NOT_FOUND"
        ∨ argDeep cfg args = true) →
      procCalls (callKmsgRead w cfg args).2 =
        [(readCmdOf cfg args n, if argDeep cfg args then 15 else 8)]) ∧
    (∀ (w : World) (cfg : Config) (args : List (String × JVal)),
      (procCalls (callKmsgSend w cfg args).2).length ≤ 1) ∧
    (∀ (w : World) (cfg : Config) (args : List (String × JVal)),
      (procCalls (callKmsgSendImage w cfg args).2).length ≤ 1) := by
  refine ⟨?_, ?_, ?_, ?_⟩
  · intro w cfg args n hchat hlim hdeep ht hrc hcode
    simp only [callKmsgRead, hlim]
    rw [if_neg hchat]
    rw [hdeep]
    simp only [Bool.false_eq_true, if_false, ht, hcode]
    rw [if_pos hrc]
    simp only [and_self, if_true]
    constructor
    · split
      · rw [readSuccess_effs]
        rfl
      · rfl
    · intro hfail
      rw [if_neg hfail]
  · intro w cfg args n hchat hlim hother
    simp only [callKmsgRead, hlim]
    rw [if_neg hchat]
    have hretry : ¬(extractErrorCode
        ((runCommand (w.procRun (readCmdOf cfg args n)
            (if argDeep cfg args then 15 else 8))).stdout ++ "\n"
         ++ (runCommand (w.procRun (readCmdOf cfg args n)
            (if argDeep cfg args then 15 else 8))).stderr) = "CHAT_NOT_FOUND"
        ∧ argDeep cfg args = false) := by
      rcases hother with h | h
      · exact fun hc => h hc.1
      · intro hc
        rw [h] at hc
        exact absurd hc.2 (by simp)
    rw [if_neg hretry]
    split <;> (try split) <;> (try split)
    all_goals first
      | rfl
      | (rw [readSuccess_effs]; rfl)
  · intro w cfg args
    simp only [callKmsgSend]
    split <;> (try split) <;> (try split) <;> (try split) <;> (try split) <;> (try split)
    all_goals simp [procCalls]
  · intro w cfg args
    simp only [callKmsgSendImage]
    split <;> (try split) <;> (try split) <;> (try split) <;> (try split) <;> (try split)
    all_goals simp [procCalls]

/-- C2 (witness): on a world where every run reports `SEARCH_MISS`, one
read call makes exactly the two invocations (plain, then deep-recovery at
15s) and ends in the retry-classified envelope. -/
theorem C2_witness :
    procCalls (callKmsgRead wMiss cfg0 argsChatA).2 =
      [(readCmdOf cfg0 argsChatA 20, 8),
       (readCmdOf cfg0 argsChatA 20 ++ ["--deep-recovery"], 15)] ∧
    resultCode (callKmsgRead wMiss cfg0 argsChatA).1 = some "CHAT_NOT_FOUND" ∧
    resultMessage (callKmsgRead wMiss cfg0 argsChatA).1 =
      some "kmsg read failed after deep-recovery retry" := by
  have h := C2_retry_policy.1 wMiss cfg0 argsChatA 20 (by decide) rfl rfl rfl (by decide) rfl
  have h2 := h.2 (by decide)
  refine ⟨h.1, ?_, ?_⟩ <;> rw [h2] <;> rfl

/-- C4 (counterexample): when the deep-recovery retry of a read call times
out, the envelope code is not PROCESS_TIMEOUT — the timed-out retry is
classified like any other retry failure (here UNKNOWN_EXEC_FAILURE),
contradicting the claim for the retry case. -/
theorem C4_counterexample :
    (runCommand (wMissTimeout.procRun (readCmdOf cfg0 argsChatA 20 ++ ["--deep-recovery"])
        15)).timed_out = true ∧
    resultCode (callKmsgRead wMissTimeout cfg0 argsChatA).1 = some "UNKNOWN_EXEC_FAILURE" ∧
    resultCode (callKmsgRead wMissTimeout cfg0 argsChatA).1 ≠ some "PROCESS_TIMEOUT" :=
  ⟨rfl, rfl, by decide⟩

/-- C4 (amended): a capability call whose first (or only) process run
times out returns the PROCESS_TIMEOUT envelope carrying the partial
stdout/stderr the Executor captured — for read, send and send-image
alike; a timed-out deep-recovery retry, however, is reported through the
error classifier applied to the retry's partial output (still carrying
that output verbatim), not as PROCESS_TIMEOUT. -/
theorem C4_amended_timeout_reporting :
    (∀ (w : World) (cfg : Config) (args : List (String × JVal)) (n : Int),
      argChat args ≠ "" →
      pyInt (pyGetD args "limit" (.num 20)) = some n →
      (runCommand (w.procRun (readCmdOf cfg args n)
          (if argDeep cfg args then 15 else 8))).timed_out = true →
      (callKmsgRead w cfg args).1 =
        .ok (errorPayload "PROCESS_TIMEOUT" "kmsg read timed out"
          "Increase stability (keep KakaoTalk open/focused) and retry."
          (runCommand (w.procRun (readCmdOf cfg args n)
              (if argDeep cfg args then 15 else 8))).stdout
          (runCommand (w.procRun (readCmdOf cfg args n)
              (if argDeep cfg args then 15 else 8))).stderr
          (runCommand (w.procRun (readCmdOf cfg args n)
              (if argDeep cfg args then 15 else 8))).latency_ms)) ∧
    (∀ (w : World) (cfg : Config) (args : List (String × JVal)),
      ¬(argChat args = "" ∨ argMessage args = "") →
      argConfirm args = false →
      (runCommand (w.procRun ([cfg.kmsgBin, "send", argChat args, argMessage args]
          ++ boolFlags (argDeep cfg args) (argKeepWindow args) (argTrace cfg args))
          (if argDeep cfg args then 18 else 10))).timed_out = true →
      (callKmsgSend w cfg args).1 =
        .ok (errorPayload "PROCESS_TIMEOUT" "kmsg send timed out"
          "Retry after ensuring KakaoTalk is responsive."
          (runCommand (w.procRun ([cfg.kmsgBin, "send", argChat args, argMessage args]
              ++ boolFlags (argDeep cfg args) (argKeepWindow args) (argTrace cfg args))
              (if argDeep cfg args then 18 else 10))).stdout
          (runCommand (w.procRun ([cfg.kmsgBin, "send", argChat args, argMessage args]
              ++ boolFlags (argDeep cfg args) (argKeepWindow args) (argTrace cfg args))
              (if argDeep cfg args then 18 else 10))).stderr
          (runCommand (w.procRun ([cfg.kmsgBin, "send", argChat args, argMessage args]
              ++ boolFlags (argDeep cfg args) (argKeepWindow args) (argTrace cfg args))
              (if argDeep cfg args then 18 else 10))).latency_ms)) ∧
    (∀ (w : World) (cfg : Config) (args : List (String × JVal)),
      ¬(argChat args = "" ∨ argImagePath args = "") →
      argConfirm args = false →
      w.isFile (argImagePath args) = true →
      (runCommand (w.procRun ([cfg.kmsgBin, "send-image", argChat args, argImagePath args]
          ++ boolFlags (argDeep cfg args) (argKeepWindow args) (argTrace cfg args))
          (if argDeep cfg args then 20 else 12))).timed_out = true →
      (callKmsgSendImage w cfg args).1 =
        .ok (errorPayload "PROCESS_TIMEOUT" "kmsg send-image timed out"
          "Retry after ensuring KakaoTalk is responsive."
          (runCommand (w.procRun ([cfg.kmsgBin, "send-image", argChat args, argImagePath args]
              ++ boolFlags (argDeep cfg args) (argKeepWindow args) (argTrace cfg args))
              (if argDeep cfg args then 20 else 12))).stdout
          (runCommand (w.procRun ([cfg.kmsgBin, "send-image", argChat args, argImagePath args]
              ++ boolFlags (argDeep cfg args) (argKeepWindow args) (argTrace cfg args))
              (if argDeep cfg args then 20 else 12))).stderr
          (runCommand (w.procRun ([cfg.kmsgBin, "send-image", argChat args, argImagePath args]
              ++ boolFlags (argDeep cfg args) (argKeepWindow args) (argTrace cfg args))
              (if argDeep cfg args then 20 else 12))).latency_ms)) ∧
    (∀ (w : World) (cfg : Config) (args : List (String × JVal)) (n : Int),
      argChat args ≠ "" →
      pyInt (pyGetD args "limit" (.num 20)) = some n →
      argDeep cfg args = false →
      (runCommand (w.procRun (readCmdOf cfg args n) 8)).timed_out = false →
      (runCommand (w.procRun (readCmdOf cfg args n) 8)).returncode ≠ 0 →
      extractErrorCode ((runCommand (w.procRun (readCmdOf cfg args n) 8)).stdout ++ "\n"
        ++ (runCommand (w.procRun (readCmdOf cfg args n) 8)).stderr) = "CHAT_NOT_FOUND" →
      (runCommand (w.procRun (readCmdOf cfg args n ++ ["--deep-recovery"]) 15)).timed_out
        = true →
      (callKmsgRead w cfg args).1 =
        .ok (errorPayload
          (extractErrorCode
            ((runCommand (w.procRun (readCmdOf cfg args n ++ ["--deep-recovery"]) 15)).stdout
             ++ "\n"
             ++ (runCommand (w.procRun (readCmdOf cfg args n ++ ["--deep-recovery"]) 15)).stderr))
          "kmsg read failed after deep-recovery retry"
          (mapHint (extractErrorCode
            ((runCommand (w.procRun (readCmdOf cfg args n ++ ["--deep-recovery"]) 15)).stdout
             ++ "\n"
             ++ (runCommand (w.procRun (readCmdOf cfg args n ++ ["--deep-recovery"]) 15)).stderr)))
          (runCommand (w.procRun (readCmdOf cfg args n ++ ["--deep-recovery"]) 15)).stdout
          (runCommand (w.procRun (readCmdOf cfg args n ++ ["--deep-recovery"]) 15)).stderr
          (runCommand (w.procRun (readCmdOf cfg args n ++ ["--deep-recovery"]) 15)).latency_ms)) := by
  refine ⟨?_, ?_, ?_, ?_⟩
  · intro w cfg args n hchat hlim ht
    simp only [callKmsgRead, hlim]
    rw [if_neg hchat, if_pos ht]
  · intro w cfg args hv hconf ht
    simp only [callKmsgSend]
    rw [if_neg hv]
    simp only [hconf, Bool.false_eq_true, if_false]
    rw [if_pos ht]
  · intro w cfg args hv hconf hfile ht
    simp only [callKmsgSendImage]
    rw [if_neg hv]
    simp only [hconf, Bool.false_eq_true, if_false, hfile]
    simp only [if_neg (by simp : ¬(true = false))]
    rw [if_pos ht]
  · intro w cfg args n hchat hlim hdeep ht hrc hcode htr
    simp only [callKmsgRead, hlim]
    rw [if_neg hchat]
    rw [hdeep]
    simp only [Bool.false_eq_true, if_false, ht, hcode]
    rw [if_pos hrc]
    simp only [and_self, if_true]
    rw [if_neg (fun hc => by rw [htr] at hc; exact absurd hc.2 (by simp))]

/-- C4 (witness): a first-run timeout on read yields the PROCESS_TIMEOUT
envelope carrying the captured partial output. -/
theorem C4_witness :
    (callKmsgRead wTimeout cfg0 argsChatA).1 =
      .ok (errorPayload "PROCESS_TIMEOUT" "kmsg read timed out"
        "Increase stability (keep KakaoTalk open/focused) and retry." "po" "pe" 8000) ∧
    resultCode (callKmsgRead wTimeout cfg0 argsChatA).1 = some "PROCESS_TIMEOUT" := by
  have h := C4_amended_timeout_reporting.1 wTimeout cfg0 argsChatA 20 (by decide) rfl rfl
  exact ⟨h, by rw [h]; rfl⟩

/-- Every payload the read success path accepts carries a boolean `ok` as
its first member. -/
theorem readSuccess_ok_shape (chat : String) (t : Bool) (r : CommandResult) (effs : List Eff) :
    ∀ p, (readSuccess chat t r effs).1 = .ok p →
      ∃ (b : Bool) (rest : List (String × JVal)), p = .obj (("ok", JVal.bool b) :: rest) := by
  intro p
  unfold readSuccess
  cases loads r.stdout with
  | none =>
    intro h
    injection h with h
    rw [← h]
    exact ⟨false, _, rfl⟩
  | some payload =>
    cases payload <;> intro h
    case obj pkvs =>
      injection h with h
      rw [← h]
      exact ⟨true, _, rfl⟩
    all_goals exact absurd h (by simp)

/-- Every payload `_call_kmsg_read` returns carries a boolean `ok` as its
first member. -/
theorem callKmsgRead_ok_shape (w : World) (cfg : Config) (args : List (String × JVal)) :
    ∀ p, (callKmsgRead w cfg args).1 = .ok p →
      ∃ (b : Bool) (rest : List (String × JVal)), p = .obj (("ok", JVal.bool b) :: rest) := by
  intro p
  simp only [callKmsgRead]
  split <;> (try split) <;> (try split) <;> (try split) <;> (try split) <;> (try split) <;>
    (try split)
  all_goals intro h
  all_goals first
    | exact readSuccess_ok_shape _ _ _ _ p h
    | (injection h with h; rw [← h]; exact ⟨false, _, rfl⟩)

/-- Every payload `_call_kmsg_send` returns carries a boolean `ok` as its
first member. -/
theorem callKmsgSend_ok_shape (w : World) (cfg : Config) (args : List (String × JVal)) :
    ∀ p, (callKmsgSend w cfg args).1 = .ok p →
      ∃ (b : Bool) (rest : List (String × JVal)), p = .obj (("ok", JVal.bool b) :: rest) := by
  intro p
  simp only [callKmsgSend]
  split <;> (try split) <;> (try split) <;> (try split) <;> (try split) <;> (try split)
  all_goals intro h
  all_goals first
    | (injection h with h; rw [← h]; exact ⟨false, _, rfl⟩)
    | (injection h with h; rw [← h]; exact ⟨true, _, rfl⟩)

/-- Every payload `_call_kmsg_send_image` returns carries a boolean `ok`
as its first member. -/
theorem callKmsgSendImage_ok_shape (w : World) (cfg : Config) (args : List (String × JVal)) :
    ∀ p, (callKmsgSendImage w cfg args).1 = .ok p →
      ∃ (b : Bool) (rest : List (String × JVal)), p = .obj (("ok", JVal.bool b) :: rest) := by
  intro p
  simp only [callKmsgSendImage]
  split <;> (try split) <;> (try split) <;> (try split) <;> (try split) <;> (try split)
  all_goals intro h
  all_goals first
    | (injection h with h; rw [← h]; exact ⟨false, _, rfl⟩)
    | (injection h with h; rw [← h]; exact ⟨true, _, rfl⟩)

/-- Wrapping a payload whose first member is a boolean `ok`. -/
theorem wrapToolResult_ok (res : PyOutcome JVal × List Eff) (b : Bool)
    (rest : List (String × JVal))
    (h : res.1 = .ok (.obj (("ok", JVal.bool b) :: rest))) :
    (wrapToolResult res).1 =
      .ok (.obj [("content", mkTextContent (prettyDumps (.obj (("ok", JVal.bool b) :: rest)))),
                 ("isError", .bool (!b)),
                 ("structuredContent", .obj (("ok", JVal.bool b) :: rest))]) := by
  obtain ⟨po, effs⟩ := res
  cases po with
  | ok v =>
    have hv : v = .obj (("ok", JVal.bool b) :: rest) := by injection h
    rw [hv]
    rfl
  | mcpError c m => exact absurd h (by simp)
  | exc m => exact absurd h (by simp)

/-- If wrapping produced a normal result, the tool payload was a dict. -/
theorem wrapToolResult_ok_inv (res : PyOutcome JVal × List Eff) (r : JVal)
    (h : (wrapToolResult res).1 = .ok r) :
    ∃ pkvs, res.1 = .ok (.obj pkvs) := by
  obtain ⟨po, effs⟩ := res
  cases po with
  | ok v =>
    cases v <;> first
      | exact ⟨_, rfl⟩
      | exact absurd h (by simp [wrapToolResult])
  | mcpError c m => exact absurd h (by simp [wrapToolResult])
  | exc m => exact absurd h (by simp [wrapToolResult])

/-- C10: every normally-produced tools/call protocol result is built from
a tool payload whose first member is a boolean `ok`; its `isError` field
is exactly the negation of that `ok` (so `isError` is true iff the
payload does not carry `ok: true`), the payload is embedded verbatim as
`structuredContent`, and the same payload pretty-printed is the text
content. -/
theorem C10_isError_negation :
    ∀ (w : World) (cfg : Config) (params : List (String × JVal)) (r : JVal),
      (handleToolsCall w cfg params).1 = .ok r →
      ∃ (payload : JVal) (b : Bool) (rest : List (String × JVal)),
        payload = .obj (("ok", JVal.bool b) :: rest) ∧
        payloadOk payload = some (.bool b) ∧
        r = .obj [("content", mkTextContent (prettyDumps payload)),
                  ("isError", .bool (!b)),
                  ("structuredContent", payload)] ∧
        ((!b) = true ↔ payloadOk payload ≠ some (.bool true)) := by
  intro w cfg params r
  simp only [handleToolsCall]
  split
  · split
    · intro h
      obtain ⟨pkvs, hok⟩ := wrapToolResult_ok_inv _ _ h
      obtain ⟨b, rest, hshape⟩ := callKmsgRead_ok_shape w cfg _ _ hok
      rw [hshape] at hok
      rw [wrapToolResult_ok _ b rest hok] at h
      injection h with h
      exact ⟨_, b, rest, rfl, rfl, h.symm, by cases b <;> simp [payloadOk, jlookup]⟩
    · split
      · intro h
        obtain ⟨pkvs, hok⟩ := wrapToolResult_ok_inv _ _ h
        obtain ⟨b, rest, hshape⟩ := callKmsgSend_ok_shape w cfg _ _ hok
        rw [hshape] at hok
        rw [wrapToolResult_ok _ b rest hok] at h
        injection h with h
        exact ⟨_, b, rest, rfl, rfl, h.symm, by cases b <;> simp [payloadOk, jlookup]⟩
      · split
        · intro h
          obtain ⟨pkvs, hok⟩ := wrapToolResult_ok_inv _ _ h
          obtain ⟨b, rest, hshape⟩ := callKmsgSendImage_ok_shape w cfg _ _ hok
          rw [hshape] at hok
          rw [wrapToolResult_ok _ b rest hok] at h
          injection h with h
          exact ⟨_, b, rest, rfl, rfl, h.symm, by cases b <;> simp [payloadOk, jlookup]⟩
        · intro h
          exact absurd h (by simp)
  · intro h
    exact absurd h (by simp)

/-- C10 (witness): a successful send produces a result whose `isError` is
false and whose `structuredContent` carries `ok: true`. -/
theorem C10_witness :
    ∃ (payload : JVal) (b : Bool) (rest : List (String × JVal)),
      payload = .obj (("ok", JVal.bool b) :: rest) ∧
      payloadOk payload = some (.bool b) ∧
      (match (handleToolsCall wDone cfg0 paramsSend).1 with
        | .ok r => r
        | _ => .null) =
        .obj [("content", mkTextContent (prettyDumps payload)),
              ("isError", .bool (!b)),
              ("structuredContent", payload)] ∧
      ((!b) = true ↔ payloadOk payload ≠ some (.bool true)) := by
  exact C10_isError_negation wDone cfg0 paramsSend _ rfl

/-! ### Decimal rendering and digit parsing -/

/-- The fuel of `natReprAux` is irrelevant once it dominates the input. -/
theorem natReprAux_irrel :
    ∀ (f1 n : Nat), n < f1 → ∀ f2, n < f2 → natReprAux f1 n = natReprAux f2 n := by
  intro f1
  induction f1 using Nat.strong_induction_on with
  | _ f1 ih =>
    intro n h1 f2 h2
    cases f1 with
    | zero => omega
    | succ g1 =>
      cases f2 with
      | zero => omega
      | succ g2 =>
        simp only [natReprAux]
        by_cases h : n < 10
        · rw [if_pos h, if_pos h]
        · rw [if_neg h, if_neg h]
          have hd1 : n / 10 < g1 := by
            have := Nat.div_lt_self (show 0 < n by omega) (show 1 < 10 by omega)
            omega
          have hd2 : n / 10 < g2 := by
            have := Nat.div_lt_self (show 0 < n by omega) (show 1 < 10 by omega)
            omega
          rw [ih g1 (by omega) (n / 10) hd1 g2 hd2]

/-- The defining recurrence of `natRepr`. -/
theorem natRepr_eq (n : Nat) :
    natRepr n = if n < 10 then [digCh n] else natRepr (n / 10) ++ [digCh (n % 10)] := by
  unfold natRepr
  simp only [natReprAux]
  by_cases h : n < 10
  · rw [if_pos h, if_pos h]
  · rw [if_neg h, if_neg h]
    congr 1
    have hlt : n / 10 < n := Nat.div_lt_self (by omega) (by omega)
    exact natReprAux_irrel n (n / 10) hlt (n / 10 + 1) (by omega)

/-- Digit characters evaluate back to their value. -/
theorem digCh_spec (d : Nat) (h : d < 10) :
    isDigitCh (digCh d) = true ∧ digVal (digCh d) = d := by
  interval_cases d <;> exact ⟨by decide, by decide⟩

/-- Every character of a decimal rendering is a digit. -/
theorem natRepr_all_digits : ∀ n, ∀ c ∈ natRepr n, isDigitCh c = true := by
  intro n
  induction n using Nat.strong_induction_on with
  | _ n ih =>
    rw [natRepr_eq]
    by_cases h : n < 10
    · rw [if_pos h]
      intro c hc
      rw [List.mem_singleton] at hc
      subst hc
      exact (digCh_spec n h).1
    · rw [if_neg h]
      intro c hc
      rw [List.mem_append] at hc
      rcases hc with hc | hc
      · exact ih (n / 10) (Nat.div_lt_self (by omega) (by omega)) c hc
      · rw [List.mem_singleton] at hc
        subst hc
        exact (digCh_spec (n % 10) (by omega)).1

/-- Decimal renderings are never empty. -/
theorem natRepr_ne_nil (n : Nat) : natRepr n ≠ [] := by
  rw [natRepr_eq]
  split <;> simp

/-- A digit character is not one of the delimiter or whitespace characters
the codec and parser dispatch on. -/
theorem isDigitCh_fact (c : Char) (h : isDigitCh c = true) :
    isWsCh c = false ∧ isPyWs c = false ∧ c ≠ ']' ∧ c ≠ '\x7d' ∧ c ≠ '\n' ∧
    c ≠ '-' ∧ c ≠ '+' ∧ c ≠ ':' := by
  have hsp : ¬(c = ' ') := fun hc => by subst hc; exact absurd h (by decide)
  have hta : ¬(c = '\t') := fun hc => by subst hc; exact absurd h (by decide)
  have hnl : ¬(c = '\n') := fun hc => by subst hc; exact absurd h (by decide)
  have hcr : ¬(c = '\r') := fun hc => by subst hc; exact absurd h (by decide)
  have hvt : ¬(c = '\x0b') := fun hc => by subst hc; exact absurd h (by decide)
  have hff : ¬(c = '\x0c') := fun hc => by subst hc; exact absurd h (by decide)
  have hbr : ¬(c = ']') := fun hc => by subst hc; exact absurd h (by decide)
  have hcb : ¬(c = '\x7d') := fun hc => by subst hc; exact absurd h (by decide)
  have hmi : ¬(c = '-') := fun hc => by subst hc; exact absurd h (by decide)
  have hpl : ¬(c = '+') := fun hc => by subst hc; exact absurd h (by decide)
  have hco : ¬(c = ':') := fun hc => by subst hc; exact absurd h (by decide)
  refine ⟨?_, ?_, hbr, hcb, hnl, hmi, hpl, hco⟩
  · simp [isWsCh, hsp, hta, hnl, hcr]
  · simp [isPyWs, hsp, hta, hnl, hcr, hvt, hff]

/-- Folding digits across an append. -/
theorem digitsVal_append (ds1 ds2 : List Char) (acc : Nat) :
    digitsVal acc (ds1 ++ ds2) = digitsVal (digitsVal acc ds1) ds2 := by
  induction ds1 generalizing acc with
  | nil => rfl
  | cons c cs ih =>
    show digitsVal (acc * 10 + digVal c) (cs ++ ds2) = digitsVal (digitsVal (acc * 10 + digVal c) cs) ds2
    exact ih _

/-- Folding the digits of a decimal rendering recovers the number. -/
theorem digitsVal_natRepr : ∀ n acc, digitsVal acc (natRepr n) = acc * 10 ^ (natRepr n).length + n := by
  intro n
  induction n using Nat.strong_induction_on with
  | _ n ih =>
    intro acc
    by_cases h : n < 10
    · have he : natRepr n = [digCh n] := by rw [natRepr_eq, if_pos h]
      rw [he]
      have h2 := (digCh_spec n h).2
      calc digitsVal acc [digCh n] = acc * 10 + digVal (digCh n) := rfl
        _ = acc * 10 ^ ([digCh n]).length + n := by
            rw [show ([digCh n]).length = 1 from rfl, pow_one]
            omega
    · have he : natRepr n = natRepr (n / 10) ++ [digCh (n % 10)] := by
        rw [natRepr_eq]
        rw [if_neg h]
      rw [he, digitsVal_append]
      have hlt : n / 10 < n := Nat.div_lt_self (by omega) (by omega)
      have h2 := (digCh_spec (n % 10) (by omega)).2
      have hih := ih (n / 10) hlt acc
      have hlen : (natRepr (n / 10) ++ [digCh (n % 10)]).length
          = (natRepr (n / 10)).length + 1 := by simp
      calc digitsVal (digitsVal acc (natRepr (n / 10))) [digCh (n % 10)]
          = digitsVal acc (natRepr (n / 10)) * 10 + digVal (digCh (n % 10)) := rfl
        _ = acc * 10 ^ ((natRepr (n / 10) ++ [digCh (n % 10)]).length) + n := by
            rw [hlen, pow_succ, ← mul_assoc]
            omega

/-- `parseDigits` consumes exactly a digit block. -/
theorem parseDigits_spec :
    ∀ (ds rest : List Char) (acc : Nat),
      (∀ c ∈ ds, isDigitCh c = true) →
      (∀ c, rest.head? = some c → isDigitCh c = false) →
      parseDigits (ds ++ rest) acc = (digitsVal acc ds, rest) := by
  intro ds
  induction ds with
  | nil =>
    intro rest acc _ hrest
    cases rest with
    | nil => rfl
    | cons c cs =>
      show (if isDigitCh c = true then parseDigits cs (acc * 10 + digVal c) else (acc, c :: cs))
          = (acc, c :: cs)
      rw [hrest c rfl]
      simp
  | cons c cs ih =>
    intro rest acc hds hrest
    have hc : isDigitCh c = true := hds c (by simp)
    show (if isDigitCh c = true then parseDigits (cs ++ rest) (acc * 10 + digVal c)
          else (acc, c :: (cs ++ rest))) = (digitsVal acc (c :: cs), rest)
    rw [hc]
    simp only [if_true]
    rw [ih rest _ (fun x hx => hds x (by simp [hx])) hrest]
    rfl

/-- Parsing the decimal rendering of `n` (followed by a non-digit) gives
back `n`. -/
theorem parseDigits_natRepr (n : Nat) (rest : List Char)
    (hrest : ∀ c, rest.head? = some c → isDigitCh c = false) :
    parseDigits (natRepr n ++ rest) 0 = (n, rest) := by
  rw [parseDigits_spec _ _ _ (natRepr_all_digits n) hrest, digitsVal_natRepr]
  simp

/-- `allDigits` accepts a decimal rendering. -/
theorem allDigits_natRepr (n : Nat) : allDigits (natRepr n) = some n := by
  obtain ⟨d, ds, hcons⟩ : ∃ d ds, natRepr n = d :: ds := by
    cases h : natRepr n with
    | nil => exact absurd h (natRepr_ne_nil n)
    | cons d ds => exact ⟨d, ds, rfl⟩
  rw [hcons]
  show (if ((d :: ds).all isDigitCh) = true then some (digitsVal 0 (d :: ds)) else none) = some n
  rw [if_pos]
  · rw [← hcons, digitsVal_natRepr]
    simp
  · rw [List.all_eq_true]
    intro c hc
    exact natRepr_all_digits n c (hcons ▸ hc)

/-! ### Stripping, lines, and byte extraction -/

/-- `trimLeft` keeps a list whose head is not whitespace. -/
theorem trimLeft_stop (c : Char) (l : List Char) (h : isPyWs c = false) :
    trimLeft (c :: l) = c :: l := by
  show (if isPyWs c = true then trimLeft l else c :: l) = c :: l
  rw [h]
  simp

/-- `trimLeft` drops a fully-whitespace prefix. -/
theorem trimLeft_drop (a b : List Char) (h : ∀ c ∈ a, isPyWs c = true) :
    trimLeft (a ++ b) = trimLeft b := by
  induction a with
  | nil => rfl
  | cons c cs ih =>
    show (if isPyWs c = true then trimLeft (cs ++ b) else c :: (cs ++ b)) = trimLeft b
    rw [h c (by simp)]
    simp only [if_true]
    exact ih (fun x hx => h x (by simp [hx]))

/-- Stripping removes exactly the whitespace around a block whose own ends
are not whitespace. -/
theorem trimBoth_sandwich (wpre l wsuf : List Char)
    (h1 : ∀ c ∈ wpre, isPyWs c = true)
    (h2 : ∀ c ∈ wsuf, isPyWs c = true)
    (h3 : ∀ c, l.head? = some c → isPyWs c = false)
    (h4 : ∀ c, l.reverse.head? = some c → isPyWs c = false) :
    trimBoth (wpre ++ l ++ wsuf) = l := by
  unfold trimBoth
  cases hl : l with
  | nil =>
    subst hl
    have hrev : (wpre ++ [] ++ wsuf).reverse = wsuf.reverse ++ (wpre.reverse ++ []) := by
      simp
    rw [hrev, trimLeft_drop _ _ (by intro c hc; exact h2 c (by simpa using hc)),
        trimLeft_drop _ _ (by intro c hc; exact h1 c (by simpa using hc))]
    rfl
  | cons d l' =>
    have hlne : l ≠ [] := by rw [hl]; simp
    obtain ⟨e, l2, hrev⟩ : ∃ e l2, l.reverse = e :: l2 := by
      cases hr : l.reverse with
      | nil => exact absurd (by simpa using congrArg List.reverse hr) hlne
      | cons e l2 => exact ⟨e, l2, rfl⟩
    rw [← hl]
    have hsp : (wpre ++ l ++ wsuf).reverse = wsuf.reverse ++ (l.reverse ++ wpre.reverse) := by
      simp
    rw [hsp, trimLeft_drop _ _ (by intro c hc; exact h2 c (by simpa using hc))]
    rw [hrev]
    rw [show e :: l2 ++ wpre.reverse = e :: (l2 ++ wpre.reverse) from rfl]
    rw [trimLeft_stop e _ (h4 e (by rw [hrev]; rfl))]
    rw [show e :: (l2 ++ wpre.reverse) = (e :: l2) ++ wpre.reverse from rfl, ← hrev]
    have hback : (l.reverse ++ wpre.reverse).reverse = wpre ++ l := by simp
    rw [hback, trimLeft_drop _ _ h1]
    rw [hl]
    exact trimLeft_stop d l' (h3 d (by rw [hl]; rfl))

/-- `readline` splits at the first newline. -/
theorem takeLine_append (pre rest : List Char) (h : ∀ c ∈ pre, c ≠ '\n') :
    takeLine (pre ++ '\n' :: rest) = (pre ++ ['\n'], rest) := by
  induction pre with
  | nil =>
    show (if ('\n' : Char) = '\n' then (['\n'], rest) else _) = (['\n'], rest)
    simp
  | cons c cs ih =>
    show (if c = '\n' then ([c], cs ++ '\n' :: rest)
          else ((c :: (takeLine (cs ++ '\n' :: rest)).1, (takeLine (cs ++ '\n' :: rest)).2)))
        = (c :: (cs ++ ['\n']), rest)
    rw [if_neg (h c (by simp))]
    rw [ih (fun x hx => h x (by simp [hx]))]

/-- `readline` on a CRLF-led stream returns the blank line. -/
theorem takeLine_crlf (l : List Char) : takeLine ('\r' :: '\n' :: l) = (['\r', '\n'], l) := by
  show (if ('\r' : Char) = '\n' then _ else ((('\r' : Char) :: (takeLine ('\n' :: l)).1,
        (takeLine ('\n' :: l)).2))) = (['\r', '\n'], l)
  rw [if_neg (by decide)]
  show (('\r' : Char) :: (if ('\n' : Char) = '\n' then (['\n'], l)
        else _).1, (if ('\n' : Char) = '\n' then (['\n'], l) else _).2) = (['\r', '\n'], l)
  rw [if_pos rfl]

/-- Reading as many bytes as the stream holds consumes it exactly. -/
theorem takeBytes_full : ∀ l : List Char, takeBytes (utf8Len l) l = (l, []) := by
  intro l
  induction l with
  | nil => rfl
  | cons c cs ih =>
    show (if c.utf8Size ≤ c.utf8Size + utf8Len cs then
          ((c :: (takeBytes (c.utf8Size + utf8Len cs - c.utf8Size) cs).1,
            (takeBytes (c.utf8Size + utf8Len cs - c.utf8Size) cs).2))
        else ([], c :: cs)) = (c :: cs, [])
    rw [if_pos (Nat.le_add_right _ _)]
    rw [show c.utf8Size + utf8Len cs - c.utf8Size = utf8Len cs by omega]
    rw [ih]

/-- Serializations are never empty. -/
theorem jser_ne_nil : ∀ v : JVal, jser v ≠ [] := by
  intro v
  cases v with
  | null => simp [jser]
  | bool b => cases b <;> simp [jser]
  | num i =>
    cases i with
    | ofNat n =>
      show natRepr n ≠ []
      exact natRepr_ne_nil n
    | negSucc m => simp [jser, intRepr]
  | str s => simp [jser]
  | arr xs => cases xs <;> simp [jser]
  | obj kvs => cases kvs <;> simp [jser]

/-- Nonempty streams have positive byte length. -/
theorem utf8Len_pos (l : List Char) (h : l ≠ []) : 1 ≤ utf8Len l := by
  cases l with
  | nil => exact absurd rfl h
  | cons c cs =>
    show 1 ≤ c.utf8Size + utf8Len cs
    have := Char.utf8Size_pos c
    omega

/-- `int(...)` inverts the decimal rendering. -/
theorem pyIntOfStr_natRepr (n : Nat) : pyIntOfStr ⟨natRepr n⟩ = some n := by
  obtain ⟨d, ds, hcons⟩ : ∃ d ds, natRepr n = d :: ds := by
    cases h : natRepr n with
    | nil => exact absurd h (natRepr_ne_nil n)
    | cons d ds => exact ⟨d, ds, rfl⟩
  have hdig := natRepr_all_digits n
  have htrim : trimBoth (natRepr n) = natRepr n := by
    have := trimBoth_sandwich [] (natRepr n) [] (by simp) (by simp)
      (by intro c hc
          cases hh : natRepr n with
          | nil => exact absurd hh (natRepr_ne_nil n)
          | cons x xs =>
            rw [hh] at hc
            injection hc with hc2
            rw [← hc2]
            exact (isDigitCh_fact x (hdig x (by rw [hh]; simp))).2.1)
      (by intro c hc
          have hmem : c ∈ (natRepr n).reverse := by
            cases hh : (natRepr n).reverse with
            | nil => rw [hh] at hc; exact absurd hc (by simp)
            | cons x xs =>
              rw [hh] at hc
              injection hc with hc2
              rw [← hc2]
              simp
          rw [List.mem_reverse] at hmem
          exact (isDigitCh_fact c (hdig c hmem)).2.1)
    simpa using this
  show (match (pyStrip ⟨natRepr n⟩).data with
    | '-' :: ds => (allDigits ds).map (fun k => -(k : Int))
    | '+' :: ds => (allDigits ds).map (fun k => (k : Int))
    | ds => (allDigits ds).map (fun k => (k : Int))) = some (n : Int)
  have hdata : (pyStrip ⟨natRepr n⟩).data = natRepr n := by
    show (⟨trimBoth (⟨natRepr n⟩ : String).data⟩ : String).data = natRepr n
    show trimBoth (natRepr n) = natRepr n
    exact htrim
  rw [hdata, hcons]
  have hd : isDigitCh d = true := hdig d (by rw [hcons]; simp)
  have hfact := isDigitCh_fact d hd
  split
  · next heq =>
    rw [show d :: ds = d :: ds from rfl] at heq
    injection heq with h1 h2
    exact absurd h1 hfact.2.2.2.2.2.1
  · next heq =>
    injection heq with h1 h2
    exact absurd h1 hfact.2.2.2.2.2.2.1
  · next =>
    rw [← hcons, allDigits_natRepr]
    rfl

/-! ### Header splitting and parser-head facts -/

/-- `partition(":")` splits at the first colon. -/
theorem splitColon_append (pre post : List Char) (h : ∀ c ∈ pre, c ≠ ':') :
    splitColon (pre ++ ':' :: post) = some (pre, post) := by
  induction pre with
  | nil =>
    show (if (':' : Char) = ':' then some (([] : List Char), post) else _) = some ([], post)
    simp
  | cons c cs ih =>
    show (if c = ':' then some (([] : List Char), cs ++ ':' :: post)
          else (splitColon (cs ++ ':' :: post)).map (fun p => (c :: p.1, p.2)))
        = some (c :: cs, post)
    rw [if_neg (h c (by simp)), ih (fun x hx => h x (by simp [hx]))]
    rfl

/-- `skipWs` keeps a list whose head is not JSON whitespace. -/
theorem skipWs_stop (c : Char) (l : List Char) (h : isWsCh c = false) :
    skipWs (c :: l) = c :: l := by
  show (if isWsCh c = true then skipWs l else c :: l) = c :: l
  rw [h]
  simp

/-- The first character of a serialization is never whitespace nor a
closing delimiter. -/
theorem jserHead : ∀ v : JVal, ∃ c cs, jser v = c :: cs ∧
    isWsCh c = false ∧ c ≠ ']' ∧ c ≠ '\x7d' := by
  intro v
  cases v with
  | null => exact ⟨'n', _, rfl, by decide, by decide, by decide⟩
  | bool b =>
    cases b with
    | false => exact ⟨'f', _, rfl, by decide, by decide, by decide⟩
    | true => exact ⟨'t', _, rfl, by decide, by decide, by decide⟩
  | num i =>
    cases i with
    | ofNat n =>
      obtain ⟨d, ds, hcons⟩ : ∃ d ds, natRepr n = d :: ds := by
        cases h : natRepr n with
        | nil => exact absurd h (natRepr_ne_nil n)
        | cons d ds => exact ⟨d, ds, rfl⟩
      have hfact := isDigitCh_fact d (natRepr_all_digits n d (by rw [hcons]; simp))
      exact ⟨d, ds, by show natRepr n = d :: ds; exact hcons, hfact.1, hfact.2.2.1, hfact.2.2.2.1⟩
    | negSucc m => exact ⟨'-', _, rfl, by decide, by decide, by decide⟩
  | str s => exact ⟨'"', _, rfl, by decide, by decide, by decide⟩
  | arr xs => cases xs with
    | nil => exact ⟨'[', _, rfl, by decide, by decide, by decide⟩
    | cons x xs => exact ⟨'[', _, rfl, by decide, by decide, by decide⟩
  | obj kvs => cases kvs with
    | nil => exact ⟨'\x7b', _, rfl, by decide, by decide, by decide⟩
    | cons m ms => exact ⟨'\x7b', _, rfl, by decide, by decide, by decide⟩

/-- Hex digits of values below 16 are accepted and evaluate back. -/
theorem hexDig_spec (d : Nat) (h : d < 16) :
    isHexCh (hexDig d) = true ∧ hexVal (hexDig d) = d := by
  interval_cases d <;> exact ⟨by decide, by decide⟩

/-! ### JSON string-escape round trip -/

/-- Parsing an escaped string body up to its closing quote recovers the
original characters. -/
theorem parseStringBody_esc : ∀ (l rest : List Char),
    parseStringBody (escList l ++ '"' :: rest) = some (l, rest) := by
  intro l
  induction l with
  | nil =>
    intro rest
    show parseStringBody ('"' :: rest) = some ([], rest)
    rw [parseStringBody.eq_def]
    rfl
  | cons c cs ih =>
    intro rest
    show parseStringBody ((escChar c ++ escList cs) ++ '"' :: rest) = some (c :: cs, rest)
    rw [List.append_assoc]
    by_cases h1 : c = '"'
    · subst h1
      rw [show escChar '"' = ['\\', '"'] from rfl, parseStringBody.eq_def]
      show (parseStringBody (escList cs ++ '"' :: rest)).map
          (fun p => ('"' :: p.1, p.2)) = some ('"' :: cs, rest)
      rw [ih]
      rfl
    · by_cases h2 : c = '\\'
      · subst h2
        rw [show escChar '\\' = ['\\', '\\'] from rfl, parseStringBody.eq_def]
        show (parseStringBody (escList cs ++ '"' :: rest)).map
            (fun p => ('\\' :: p.1, p.2)) = some ('\\' :: cs, rest)
        rw [ih]
        rfl
      · by_cases h3 : c = '\n'
        · subst h3
          rw [show escChar '\n' = ['\\', 'n'] from rfl, parseStringBody.eq_def]
          show (parseStringBody (escList cs ++ '"' :: rest)).map
              (fun p => ('\n' :: p.1, p.2)) = some ('\n' :: cs, rest)
          rw [ih]
          rfl
        · by_cases h4 : c = '\r'
          · subst h4
            rw [show escChar '\r' = ['\\', 'r'] from rfl, parseStringBody.eq_def]
            show (parseStringBody (escList cs ++ '"' :: rest)).map
                (fun p => ('\r' :: p.1, p.2)) = some ('\r' :: cs, rest)
            rw [ih]
            rfl
          · by_cases h5 : c = '\t'
            · subst h5
              rw [show escChar '\t' = ['\\', 't'] from rfl, parseStringBody.eq_def]
              show (parseStringBody (escList cs ++ '"' :: rest)).map
                  (fun p => ('\t' :: p.1, p.2)) = some ('\t' :: cs, rest)
              rw [ih]
              rfl
            · by_cases h6 : c = '\x08'
              · subst h6
                rw [show escChar '\x08' = ['\\', 'b'] from rfl, parseStringBody.eq_def]
                show (parseStringBody (escList cs ++ '"' :: rest)).map
                    (fun p => ('\x08' :: p.1, p.2)) = some ('\x08' :: cs, rest)
                rw [ih]
                rfl
              · by_cases h7 : c = '\x0c'
                · subst h7
                  rw [show escChar '\x0c' = ['\\', 'f'] from rfl, parseStringBody.eq_def]
                  show (parseStringBody (escList cs ++ '"' :: rest)).map
                      (fun p => ('\x0c' :: p.1, p.2)) = some ('\x0c' :: cs, rest)
                  rw [ih]
                  rfl
                · by_cases h8 : c.toNat < 32
                  · have hesc : escChar c =
                        ['\\', 'u', '0', '0', hexDig (c.toNat / 16), hexDig (c.toNat % 16)] := by
                      unfold escChar
                      rw [if_neg h1, if_neg h2, if_neg h3, if_neg h4, if_neg h5, if_neg h6,
                          if_neg h7, if_pos h8]
                    rw [hesc, parseStringBody.eq_def]
                    have hhi := hexDig_spec (c.toNat / 16) (by omega)
                    have hlo := hexDig_spec (c.toNat % 16) (by omega)
                    generalize hgh : hexDig (c.toNat / 16) = dhi at hhi ⊢
                    generalize hgl : hexDig (c.toNat % 16) = dlo at hlo ⊢
                    show (if (isHexCh '0' && isHexCh '0' && isHexCh dhi && isHexCh dlo) = true then
                          (parseStringBody (escList cs ++ '"' :: rest)).map (fun p =>
                            (Char.ofNat (((hexVal '0' * 16 + hexVal '0') * 16 + hexVal dhi) * 16
                              + hexVal dlo) :: p.1, p.2))
                        else none) = some (c :: cs, rest)
                    rw [hhi.1, hlo.1]
                    rw [show (isHexCh '0' && isHexCh '0' && true && true) = true from rfl]
                    simp only [if_true]
                    rw [ih]
                    have hval : ((hexVal '0' * 16 + hexVal '0') * 16 + hexVal dhi) * 16 + hexVal dlo
                        = c.toNat := by
                      rw [hhi.2, hlo.2]
                      have h0 : hexVal '0' = 0 := by decide
                      rw [h0]
                      omega
                    rw [hval, Char.ofNat_toNat]
                    rfl
                  · have hesc : escChar c = [c] := by
                      unfold escChar
                      rw [if_neg h1, if_neg h2, if_neg h3, if_neg h4, if_neg h5, if_neg h6,
                          if_neg h7, if_neg h8]
                    rw [hesc, parseStringBody.eq_def]
                    show (if c = '"' then some ([], escList cs ++ '"' :: rest)
                          else if c = '\\' then
                            (match escList cs ++ '"' :: rest with
                              | [] => none
                              | e :: rest2 =>
                                if e = 'u' then
                                  match rest2 with
                                  | g1 :: g2 :: g3 :: g4 :: rest3 =>
                                    if isHexCh g1 && isHexCh g2 && isHexCh g3 && isHexCh g4 then
                                      (parseStringBody rest3).map (fun p =>
                                        (Char.ofNat (((hexVal g1 * 16 + hexVal g2) * 16 + hexVal g3)
                                          * 16 + hexVal g4) :: p.1, p.2))
                                    else none
                                  | _ => none
                                else
                                  match unescCh e with
                                  | some u => (parseStringBody rest2).map (fun p => (u :: p.1, p.2))
                                  | none => none)
                          else (parseStringBody (escList cs ++ '"' :: rest)).map
                            (fun p => (c :: p.1, p.2))) = some (c :: cs, rest)
                    rw [if_neg h1, if_neg h2, ih]
                    rfl

/-- `skipWs` drops a single leading space. -/
theorem skipWs_space (l : List Char) : skipWs (' ' :: l) = skipWs l := by
  show (if isWsCh ' ' = true then skipWs l else ' ' :: l) = skipWs l
  rw [show isWsCh ' ' = true from rfl]
  simp

/-- Value parsing ignores one leading space. -/
theorem parseVal_cons_space (f : Nat) (l : List Char) :
    parseVal f (' ' :: l) = parseVal f l := by
  cases f with
  | zero => simp only [parseVal.eq_def]
  | succ g =>
    simp only [parseVal.eq_def]
    rw [skipWs_space]

/-- One-step unfolding of `parseElems` at a successor fuel value. -/
theorem parseElems_succ_eq (g : Nat) (input : List Char) :
    parseElems (g+1) input =
      (match parseVal g input with
      | none => none
      | some (v, r) =>
        match skipWs r with
        | ',' :: r2 => (parseElems g r2).map (fun p => (v :: p.1, p.2))
        | ']' :: r2 => some ([v], r2)
        | _ => none) := rfl

/-- One-step unfolding of `parseMembers` at a successor fuel value. -/
theorem parseMembers_succ_eq (g : Nat) (input : List Char) :
    parseMembers (g+1) input =
      (match skipWs input with
      | '"' :: rest =>
        match parseStringBody rest with
        | none => none
        | some (k, r) =>
          match skipWs r with
          | ':' :: r2 =>
            match parseVal g r2 with
            | none => none
            | some (v, r3) =>
              match skipWs r3 with
              | ',' :: r4 => (parseMembers g r4).map (fun p => ((⟨k⟩, v) :: p.1, p.2))
              | '\x7d' :: r4 => some ([(⟨k⟩, v)], r4)
              | _ => none
          | _ => none
      | _ => none) := rfl

/-- Element-list parsing ignores one leading space. -/
theorem parseElems_cons_space (f : Nat) (l : List Char) :
    parseElems f (' ' :: l) = parseElems f l := by
  cases f with
  | zero => rfl
  | succ g =>
    rw [parseElems_succ_eq, parseElems_succ_eq, parseVal_cons_space]

/-- Member-list parsing ignores one leading space. -/
theorem parseMembers_cons_space (f : Nat) (l : List Char) :
    parseMembers f (' ' :: l) = parseMembers f l := by
  cases f with
  | zero => rfl
  | succ g =>
    rw [parseMembers_succ_eq, parseMembers_succ_eq, skipWs_space]

/-- The parsing fuel of any value is positive. -/
theorem jfuel_pos : ∀ v : JVal, 1 ≤ jfuel v := by
  intro v
  cases v with
  | null => exact le_refl 1
  | bool b => exact le_refl 1
  | num i => exact le_refl 1
  | str s => exact le_refl 1
  | arr xs => cases xs <;> simp [jfuel]
  | obj kvs => cases kvs <;> simp [jfuel]

/-- `parseVal` on a `null` literal. -/
theorem parseVal_lit_null (g : Nat) (rest : List Char) :
    parseVal (g+1) ('n' :: 'u' :: 'l' :: 'l' :: rest) = some (.null, rest) := rfl

/-- `parseVal` on a `true` literal. -/
theorem parseVal_lit_true (g : Nat) (rest : List Char) :
    parseVal (g+1) ('t' :: 'r' :: 'u' :: 'e' :: rest) = some (.bool true, rest) := rfl

/-- `parseVal` on a `false` literal. -/
theorem parseVal_lit_false (g : Nat) (rest : List Char) :
    parseVal (g+1) ('f' :: 'a' :: 'l' :: 's' :: 'e' :: rest) = some (.bool false, rest) := rfl

/-- `parseVal` on an empty array literal. -/
theorem parseVal_arr_nil (g : Nat) (rest : List Char) :
    parseVal (g+1) ('[' :: ']' :: rest) = some (.arr [], rest) := rfl

/-- `parseVal` on an empty object literal. -/
theorem parseVal_obj_nil (g : Nat) (rest : List Char) :
    parseVal (g+1) ('\x7b' :: '\x7d' :: rest) = some (.obj [], rest) := rfl

/-- `parseVal` on an opening quote defers to `parseStringBody`. -/
theorem parseVal_str_quote (g : Nat) (l : List Char) :
    parseVal (g+1) ('"' :: l) =
      (parseStringBody l).map (fun p => (JVal.str ⟨p.1⟩, p.2)) := rfl

/-- `parseVal` on a digit head parses a number via `parseDigits`. -/
theorem parseVal_digit (g : Nat) (d : Char) (l : List Char) (hd : isDigitCh d = true) :
    parseVal (g+1) (d :: l) =
      some (.num ((parseDigits (d :: l) 0).1 : Int), (parseDigits (d :: l) 0).2) := by
  have hfact := isDigitCh_fact d hd
  simp only [parseVal.eq_def]
  rw [skipWs_stop d l hfact.1]
  simp [hd]

/-- `parseVal` on a minus sign followed by a digit parses a negated number. -/
theorem parseVal_neg (g : Nat) (d : Char) (l : List Char) (hd : isDigitCh d = true) :
    parseVal (g+1) ('-' :: d :: l) =
      some (.num (-((parseDigits (d :: l) 0).1 : Int)), (parseDigits (d :: l) 0).2) := by
  have h1 : parseVal (g+1) ('-' :: d :: l) =
      (if isDigitCh d = true then
        some (.num (-((parseDigits (d :: l) 0).1 : Int)), (parseDigits (d :: l) 0).2)
      else none) := rfl
  rw [h1, hd]
  simp

/-- `parseVal` on an opening bracket whose nonempty content does not start
with a closing bracket defers to `parseElems`. -/
theorem parseVal_arr_go (g : Nat) (l : List Char) (c : Char) (l2 : List Char)
    (hsw : skipWs l = c :: l2) (hc : c ≠ ']') :
    parseVal (g+1) ('[' :: l) =
      (parseElems g (c :: l2)).map (fun p => (JVal.arr p.1, p.2)) := by
  have h1 : parseVal (g+1) ('[' :: l) =
      (match skipWs l with
      | ']' :: rest2 => some (JVal.arr [], rest2)
      | rest2 => (parseElems g rest2).map (fun p => (JVal.arr p.1, p.2))) := rfl
  rw [h1, hsw]
  split
  · next heq => exact absurd (List.head_eq_of_cons_eq heq.symm).symm hc
  · rfl

/-- `parseVal` on an opening brace whose nonempty content does not start
with a closing brace defers to `parseMembers`. -/
theorem parseVal_obj_go (g : Nat) (l : List Char) (c : Char) (l2 : List Char)
    (hsw : skipWs l = c :: l2) (hc : c ≠ '\x7d') :
    parseVal (g+1) ('\x7b' :: l) =
      (parseMembers g (c :: l2)).map (fun p => (JVal.obj p.1, p.2)) := by
  have h1 : parseVal (g+1) ('\x7b' :: l) =
      (match skipWs l with
      | '\x7d' :: rest2 => some (JVal.obj [], rest2)
      | rest2 => (parseMembers g rest2).map (fun p => (JVal.obj p.1, p.2))) := rfl
  rw [h1, hsw]
  split
  · next heq => exact absurd (List.head_eq_of_cons_eq heq.symm).symm hc
  · rfl

/-- One parsing step of `parseElems` once the leading value is known. -/
theorem parseElems_step (g : Nat) (input r : List Char) (v : JVal)
    (h : parseVal g input = some (v, r)) :
    parseElems (g+1) input =
      (match skipWs r with
      | ',' :: r2 => (parseElems g r2).map (fun p => (v :: p.1, p.2))
      | ']' :: r2 => some ([v], r2)
      | _ => none) := by
  rw [parseElems_succ_eq, h]

/-- One parsing step of `parseMembers` once the leading key and value are
known. -/
theorem parseMembers_step (g : Nat) (input b : List Char) (k r1 : List Char)
    (r2 : List Char) (v : JVal) (r3 : List Char)
    (h1 : skipWs input = '"' :: b)
    (h2 : parseStringBody b = some (k, r1))
    (h3 : skipWs r1 = ':' :: r2)
    (h4 : parseVal g r2 = some (v, r3)) :
    parseMembers (g+1) input =
      (match skipWs r3 with
      | ',' :: r4 => (parseMembers g r4).map (fun p => ((⟨k⟩, v) :: p.1, p.2))
      | '\x7d' :: r4 => some ([(⟨k⟩, v)], r4)
      | _ => none) := by
  rw [parseMembers_succ_eq]
  simp only [h1, h2, h3, h4]

/-- The fuelled parser inverts the serializer: with fuel at least the
value's `jfuel`, parsing its serialization followed by a non-digit-leading
remainder returns the value and the remainder (and likewise for the
element-list and member-list parsers). -/
theorem parse_jser_roundtrip : ∀ f : Nat,
    (∀ v rest, jfuel v ≤ f → (∀ c, rest.head? = some c → isDigitCh c = false) →
      parseVal f (jser v ++ rest) = some (v, rest)) ∧
    (∀ x xs rest, jfuelElems (x :: xs) ≤ f →
      parseElems f ((jser x ++ jserElems xs) ++ ']' :: rest) = some (x :: xs, rest)) ∧
    (∀ k v ms rest, jfuelMembers ((k, v) :: ms) ≤ f →
      parseMembers f ((jserMember (k, v) ++ jserMembers ms) ++ '\x7d' :: rest)
        = some ((k, v) :: ms, rest)) := by
  intro f
  induction f with
  | zero =>
    refine ⟨?_, ?_, ?_⟩
    · intro v rest hf _
      exact absurd hf (by have := jfuel_pos v; omega)
    · intro x xs rest hf
      exact absurd hf (by simp only [jfuelElems]; omega)
    · intro k v ms rest hf
      exact absurd hf (by simp only [jfuelMembers]; omega)
  | succ g ih =>
    obtain ⟨ihv, ihe, ihm⟩ := ih
    refine ⟨?_, ?_, ?_⟩
    · intro v rest hf hrest
      cases v with
      | null => exact parseVal_lit_null g rest
      | bool b =>
        cases b with
        | false => exact parseVal_lit_false g rest
        | true => exact parseVal_lit_true g rest
      | num i =>
        cases i with
        | ofNat n =>
          obtain ⟨d, ds, hcons⟩ : ∃ d ds, natRepr n = d :: ds := by
            cases h : natRepr n with
            | nil => exact absurd h (natRepr_ne_nil n)
            | cons d ds => exact ⟨d, ds, rfl⟩
          have hd : isDigitCh d = true := natRepr_all_digits n d (by rw [hcons]; simp)
          have hp : parseDigits (natRepr n ++ rest) 0 = (n, rest) :=
            parseDigits_natRepr n rest hrest
          show parseVal (g+1) (natRepr n ++ rest) = some (.num (Int.ofNat n), rest)
          rw [hcons, List.cons_append, parseVal_digit g d (ds ++ rest) hd,
              ← List.cons_append, ← hcons, hp]
          rfl
        | negSucc m =>
          obtain ⟨d, ds, hcons⟩ : ∃ d ds, natRepr (m+1) = d :: ds := by
            cases h : natRepr (m+1) with
            | nil => exact absurd h (natRepr_ne_nil (m+1))
            | cons d ds => exact ⟨d, ds, rfl⟩
          have hd : isDigitCh d = true := natRepr_all_digits (m+1) d (by rw [hcons]; simp)
          have hp : parseDigits (natRepr (m+1) ++ rest) 0 = (m+1, rest) :=
            parseDigits_natRepr (m+1) rest hrest
          have hneg : (Int.negSucc m) = -(((m+1 : Nat) : Int)) := by
            rw [Int.negSucc_eq]; push_cast; ring
          show parseVal (g+1) (('-' :: natRepr (m+1)) ++ rest)
              = some (.num (Int.negSucc m), rest)
          rw [List.cons_append, hcons, List.cons_append,
              parseVal_neg g d (ds ++ rest) hd, ← List.cons_append, ← hcons, hp, hneg]
      | str s =>
        show parseVal (g+1) (('"' :: (escList s.data ++ ['"'])) ++ rest)
            = some (.str s, rest)
        rw [List.cons_append, List.append_assoc, List.singleton_append,
            parseVal_str_quote, parseStringBody_esc]
        rfl
      | arr xs =>
        cases xs with
        | nil => exact parseVal_arr_nil g rest
        | cons x xs =>
          obtain ⟨c, cs, hx, hws, hne1, _⟩ := jserHead x
          have hL : (jser x ++ jserElems xs) ++ ']' :: rest
              = c :: ((cs ++ jserElems xs) ++ ']' :: rest) := by
            rw [hx]; simp
          have hsw : skipWs ((jser x ++ jserElems xs) ++ ']' :: rest)
              = c :: ((cs ++ jserElems xs) ++ ']' :: rest) := by
            rw [hL]; exact skipWs_stop _ _ hws
          have hfe : jfuelElems (x :: xs) ≤ g := by
            simp only [jfuel] at hf; omega
          show parseVal (g+1)
              (('[' :: ((jser x ++ jserElems xs) ++ [']'])) ++ rest)
              = some (.arr (x :: xs), rest)
          rw [List.cons_append, List.append_assoc, List.singleton_append,
              parseVal_arr_go g _ c _ hsw hne1, ← hL, ihe x xs rest hfe]
          rfl
      | obj kvs =>
        cases kvs with
        | nil => exact parseVal_obj_nil g rest
        | cons m ms =>
          obtain ⟨k, v⟩ := m
          have hL : (jserMember (k, v) ++ jserMembers ms) ++ '\x7d' :: rest
              = '"' :: (((escList k.data ++ ('"' :: ':' :: ' ' :: jser v)) ++ jserMembers ms) ++ '\x7d' :: rest) := rfl
          have hsw : skipWs ((jserMember (k, v) ++ jserMembers ms) ++ '\x7d' :: rest)
              = '"' :: (((escList k.data ++ ('"' :: ':' :: ' ' :: jser v)) ++ jserMembers ms) ++ '\x7d' :: rest) := by
            rw [hL]; exact skipWs_stop _ _ (by decide)
          have hfm : jfuelMembers ((k, v) :: ms) ≤ g := by
            simp only [jfuel] at hf; omega
          show parseVal (g+1)
              (('\x7b' :: ((jserMember (k, v) ++ jserMembers ms) ++ ['\x7d'])) ++ rest)
              = some (.obj ((k, v) :: ms), rest)
          rw [List.cons_append, List.append_assoc, List.singleton_append,
              parseVal_obj_go g _ '"' _ hsw (by decide), ← hL, ihm k v ms rest hfm]
          rfl
    · intro x xs rest hfe
      have hmax1 := Nat.le_max_left (jfuel x) (jfuelElems xs)
      have hmax2 := Nat.le_max_right (jfuel x) (jfuelElems xs)
      simp only [jfuelElems] at hfe
      have hfx : jfuel x ≤ g := by omega
      have hrest2 : ∀ c, (jserElems xs ++ ']' :: rest).head? = some c →
          isDigitCh c = false := by
        cases xs with
        | nil => intro c hc; simp [jserElems] at hc; subst hc; decide
        | cons y ys => intro c hc; simp [jserElems] at hc; subst hc; decide
      have hpv : parseVal g ((jser x ++ jserElems xs) ++ ']' :: rest)
          = some (x, jserElems xs ++ ']' :: rest) := by
        rw [List.append_assoc]
        exact ihv x _ hfx hrest2
      rw [parseElems_step g _ _ x hpv]
      cases xs with
      | nil =>
        rw [show jserElems ([] : List JVal) ++ ']' :: rest = ']' :: rest from rfl,
            skipWs_stop ']' rest (by decide)]
        rfl
      | cons y ys =>
        have hfy : jfuelElems (y :: ys) ≤ g := by omega
        rw [show jserElems (y :: ys) ++ ']' :: rest
            = ',' :: ' ' :: ((jser y ++ jserElems ys) ++ ']' :: rest) from rfl,
            skipWs_stop ',' _ (by decide)]
        show (parseElems g (' ' :: ((jser y ++ jserElems ys) ++ ']' :: rest))).map
            (fun p => (x :: p.1, p.2)) = some (x :: y :: ys, rest)
        rw [parseElems_cons_space, ihe y ys rest hfy]
        rfl
    · intro k v ms rest hfm
      have hmax1 := Nat.le_max_left (jfuel v) (jfuelMembers ms)
      have hmax2 := Nat.le_max_right (jfuel v) (jfuelMembers ms)
      simp only [jfuelMembers] at hfm
      have hfv : jfuel v ≤ g := by omega
      have hrest2 : ∀ c, (jserMembers ms ++ '\x7d' :: rest).head? = some c →
          isDigitCh c = false := by
        cases ms with
        | nil => intro c hc; simp [jserMembers] at hc; subst hc; decide
        | cons m2 ms2 => intro c hc; simp [jserMembers] at hc; subst hc; decide
      have h1 : skipWs ((jserMember (k, v) ++ jserMembers ms) ++ '\x7d' :: rest)
          = '"' :: (((escList k.data ++ ('"' :: ':' :: ' ' :: jser v)) ++ jserMembers ms) ++ '\x7d' :: rest) :=
        skipWs_stop _ _ (by decide)
      have h2 : parseStringBody (((escList k.data ++ ('"' :: ':' :: ' ' :: jser v)) ++ jserMembers ms) ++ '\x7d' :: rest)
          = some (k.data, ':' :: ' ' :: (jser v ++ (jserMembers ms ++ '\x7d' :: rest))) := by
        rw [show (((escList k.data ++ ('"' :: ':' :: ' ' :: jser v)) ++ jserMembers ms) ++ '\x7d' :: rest)
            = escList k.data ++ ('"' :: (':' :: ' ' :: (jser v ++ (jserMembers ms ++ '\x7d' :: rest)))) from by simp]
        exact parseStringBody_esc _ _
      have h3 : skipWs (':' :: ' ' :: (jser v ++ (jserMembers ms ++ '\x7d' :: rest)))
          = ':' :: (' ' :: (jser v ++ (jserMembers ms ++ '\x7d' :: rest))) :=
        skipWs_stop _ _ (by decide)
      have h4 : parseVal g (' ' :: (jser v ++ (jserMembers ms ++ '\x7d' :: rest)))
          = some (v, jserMembers ms ++ '\x7d' :: rest) := by
        rw [parseVal_cons_space]
        exact ihv v _ hfv hrest2
      rw [parseMembers_step g _ _ _ _ _ _ _ h1 h2 h3 h4]
      cases ms with
      | nil =>
        rw [show jserMembers ([] : List (String × JVal)) ++ '\x7d' :: rest = '\x7d' :: rest from rfl,
            skipWs_stop '\x7d' rest (by decide)]
        rfl
      | cons m2 ms2 =>
        obtain ⟨k2, v2⟩ := m2
        have hf2 : jfuelMembers ((k2, v2) :: ms2) ≤ g := by omega
        rw [show jserMembers ((k2, v2) :: ms2) ++ '\x7d' :: rest
            = ',' :: ' ' :: ((jserMember (k2, v2) ++ jserMembers ms2) ++ '\x7d' :: rest) from rfl,
            skipWs_stop ',' _ (by decide)]
        show (parseMembers g (' ' :: ((jserMember (k2, v2) ++ jserMembers ms2) ++ '\x7d' :: rest))).map
            (fun p => ((k, v) :: p.1, p.2)) = some ((k, v) :: (k2, v2) :: ms2, rest)
        rw [parseMembers_cons_space, ihm k2 v2 ms2 rest hf2]
        rfl

/-- The parsing fuel of a value is bounded by the length of its
serialization (with combined bounds for element and member lists). -/
theorem jser_lengths : ∀ n : Nat,
    (∀ v : JVal, sizeOf v ≤ n → jfuel v ≤ (jser v).length) ∧
    (∀ (x : JVal) (xs : List JVal), sizeOf (x :: xs) ≤ n →
      jfuelElems (x :: xs) ≤ (jser x).length + (jserElems xs).length + 1) ∧
    (∀ (k : String) (v : JVal) (ms : List (String × JVal)), sizeOf ((k, v) :: ms) ≤ n →
      jfuelMembers ((k, v) :: ms) ≤ (jserMember (k, v)).length + (jserMembers ms).length + 1) := by
  intro n
  induction n using Nat.strong_induction_on with
  | _ n ih =>
    refine ⟨?_, ?_, ?_⟩
    · intro v hsz
      cases v with
      | null => simp [jfuel, jser]
      | bool b => cases b <;> simp [jfuel, jser]
      | num i =>
        cases i with
        | ofNat n0 =>
          have : 0 < (natRepr n0).length := List.length_pos.2 (natRepr_ne_nil n0)
          show jfuel (.num (Int.ofNat n0)) ≤ (natRepr n0).length
          simp only [jfuel]
          omega
        | negSucc m =>
          show jfuel (.num (Int.negSucc m)) ≤ ('-' :: natRepr (m+1)).length
          simp only [jfuel, List.length_cons]
          omega
      | str s =>
        show jfuel (.str s) ≤ ('"' :: (escList s.data ++ ['"'])).length
        simp only [jfuel, List.length_cons]
        omega
      | arr xs =>
        cases xs with
        | nil => simp [jfuel, jser]
        | cons x xs =>
          simp only [JVal.arr.sizeOf_spec, List.cons.sizeOf_spec] at hsz
          have he := (ih (n-1) (by omega)).2.1 x xs
            (by simp only [List.cons.sizeOf_spec]; omega)
          show jfuel (.arr (x :: xs)) ≤ ('[' :: ((jser x ++ jserElems xs) ++ [']'])).length
          simp only [jfuel, List.length_cons, List.length_append, List.length_singleton]
          omega
      | obj kvs =>
        cases kvs with
        | nil => simp [jfuel, jser]
        | cons m ms =>
          obtain ⟨k, v⟩ := m
          simp only [JVal.obj.sizeOf_spec, List.cons.sizeOf_spec, Prod.mk.sizeOf_spec] at hsz
          have hm := (ih (n-1) (by omega)).2.2 k v ms
            (by simp only [List.cons.sizeOf_spec, Prod.mk.sizeOf_spec]; omega)
          show jfuel (.obj ((k, v) :: ms))
              ≤ ('\x7b' :: ((jserMember (k, v) ++ jserMembers ms) ++ ['\x7d'])).length
          simp only [jfuel, List.length_cons, List.length_append, List.length_singleton]
          omega
    · intro x xs hsz
      simp only [List.cons.sizeOf_spec] at hsz
      have hv := (ih (n-1) (by omega)).1 x (by omega)
      cases xs with
      | nil =>
        show 1 + max (jfuel x) (jfuelElems []) ≤ (jser x).length + (jserElems ([] : List JVal)).length + 1
        simp only [jfuelElems, List.length_nil]
        have := Nat.max_le.2 ⟨hv, Nat.zero_le ((jser x).length)⟩
        omega
      | cons y ys =>
        have he2 := (ih (n-1) (by omega)).2.1 y ys (by simp only [List.cons.sizeOf_spec] at hsz ⊢; omega)
        show 1 + max (jfuel x) (jfuelElems (y :: ys))
            ≤ (jser x).length + (jserElems (y :: ys)).length + 1
        have hlen : (jserElems (y :: ys)).length = 2 + ((jser y).length + (jserElems ys).length) := by
          show (',' :: ' ' :: (jser y ++ jserElems ys)).length = _
          simp [List.length_append]
          omega
        rw [hlen]
        have hmax := Nat.max_le.2 ⟨le_trans hv (by omega),
          le_trans he2 (by omega : (jser y).length + (jserElems ys).length + 1
            ≤ (jser x).length + (2 + ((jser y).length + (jserElems ys).length)))⟩
        omega
    · intro k v ms hsz
      simp only [List.cons.sizeOf_spec, Prod.mk.sizeOf_spec] at hsz
      have hv := (ih (n-1) (by omega)).1 v (by omega)
      have hmem : (jserMember (k, v)).length
          = 1 + ((escList k.data).length + (3 + (jser v).length)) := by
        show ('"' :: (escList k.data ++ '"' :: ':' :: ' ' :: jser v)).length = _
        simp [List.length_append]
        omega
      cases ms with
      | nil =>
        show 1 + max (jfuel v) (jfuelMembers []) ≤ (jserMember (k, v)).length + (jserMembers ([] : List (String × JVal))).length + 1
        simp only [jfuelMembers, List.length_nil]
        rw [hmem]
        have := Nat.max_le.2 ⟨hv, Nat.zero_le ((jser v).length)⟩
        omega
      | cons m2 ms2 =>
        obtain ⟨k2, v2⟩ := m2
        have hm2 := (ih (n-1) (by omega)).2.2 k2 v2 ms2
          (by simp only [List.cons.sizeOf_spec, Prod.mk.sizeOf_spec] at hsz ⊢; omega)
        show 1 + max (jfuel v) (jfuelMembers ((k2, v2) :: ms2))
            ≤ (jserMember (k, v)).length + (jserMembers ((k2, v2) :: ms2)).length + 1
        have hlen : (jserMembers ((k2, v2) :: ms2)).length
            = 2 + ((jserMember (k2, v2)).length + (jserMembers ms2).length) := by
          show (',' :: ' ' :: (jserMember (k2, v2) ++ jserMembers ms2)).length = _
          simp [List.length_append]
          omega
        rw [hlen, hmem]
        have hmax := Nat.max_le.2 ⟨le_trans hv (by omega),
          le_trans hm2 (by omega : (jserMember (k2, v2)).length + (jserMembers ms2).length + 1
            ≤ 1 + ((escList k.data).length + (3 + (jser v).length))
              + (2 + ((jserMember (k2, v2)).length + (jserMembers ms2).length)))⟩
        omega

/-- Fuel one past the serialization length always suffices. -/
theorem jfuel_le (v : JVal) : jfuel v ≤ (jser v).length :=
  (jser_lengths (sizeOf v)).1 v (le_refl _)

/-- `json.loads` inverts `json.dumps`. -/
theorem loads_jser (v : JVal) : loads ⟨jser v⟩ = some v := by
  have h := (parse_jser_roundtrip ((jser v).length + 1)).1 v []
    (by have := jfuel_le v; omega)
    (by intro c hc; simp at hc)
  rw [List.append_nil] at h
  show (match parseVal ((jser v).length + 1) (jser v) with
    | some (v2, rest) => if skipWs rest = [] then some v2 else none
    | none => none) = some v
  rw [h]
  rfl

/-- One-step unfolding of `readRawLoop` at a successor fuel value. -/
theorem readRawLoop_succ_eq (fuel : Nat) (stream : List Char)
    (hs : List (List Char × List Char)) :
    readRawLoop (fuel + 1) stream hs =
      (let p := takeLine stream
       if p.1 = [] then .noMsg
       else if p.1 = ['\r', '\n'] || p.1 = ['\n'] then
         readAfterHeaders hs p.2
       else
         let decoded := trimBoth p.1
         if decoded = [] then readRawLoop fuel p.2 hs
         else
           match splitColon decoded with
           | none => readRawLoop fuel p.2 hs
           | some (k, vv) => readRawLoop fuel p.2 (setHeader hs (lowerList (trimBoth k)) (trimBoth vv))) := rfl

/-- The header loop consumes one `key: value` header line. -/
theorem readRawLoop_step_header (fuel : Nat) (stream rest line : List Char)
    (hs : List (List Char × List Char)) (k vv : List Char)
    (htl : takeLine stream = (line, rest))
    (hne : line ≠ [])
    (hne2 : line ≠ ['\r', '\n'])
    (hne3 : line ≠ ['\n'])
    (hdec : trimBoth line ≠ [])
    (hsplit : splitColon (trimBoth line) = some (k, vv)) :
    readRawLoop (fuel + 1) stream hs
      = readRawLoop fuel rest (setHeader hs (lowerList (trimBoth k)) (trimBoth vv)) := by
  rw [readRawLoop_succ_eq, htl]
  simp [hne, hne2, hne3, hdec, hsplit]

/-- The header loop hands an empty (CR LF) line to `readAfterHeaders`. -/
theorem readRawLoop_step_blank (fuel : Nat) (stream rest : List Char)
    (hs : List (List Char × List Char))
    (htl : takeLine stream = (['\r', '\n'], rest)) :
    readRawLoop (fuel + 1) stream hs = readAfterHeaders hs rest := by
  rw [readRawLoop_succ_eq, htl]
  simp

/-- The head of a reversed append is the head of the reversed right part
when that part is nonempty. -/
theorem reverse_head_last (a l : List Char) (hl : l ≠ []) :
    ((a ++ l).reverse).head? = (l.reverse).head? := by
  rw [List.reverse_append]
  cases hrev : l.reverse with
  | nil => exact absurd (by simpa using hrev) hl
  | cons c cs => simp

/-- The last character of a decimal rendering is a digit. -/
theorem natRepr_rev_head_digit (n : Nat) :
    ∀ c, ((natRepr n).reverse).head? = some c → isDigitCh c = true := by
  intro c hc
  have hmem : c ∈ natRepr n := by
    rw [← List.mem_reverse]
    cases hrev : (natRepr n).reverse with
    | nil => rw [hrev] at hc; simp at hc
    | cons c0 cs =>
      rw [hrev] at hc
      simp only [List.head?_cons, Option.some.injEq] at hc
      rw [← hc]
      simp
  exact natRepr_all_digits n c hmem

/-- Evaluation of `readAfterHeaders` when the collected headers carry a
decimal `content-length`. -/
theorem readAfterHeaders_eval (hs : List (List Char × List Char)) (rest : List Char) (n : Nat)
    (hlk : hLookup hs "content-length".data = some (natRepr n))
    (hn : 1 ≤ n) :
    readAfterHeaders hs rest =
      (if (takeBytes n rest).1 = [] then RawRead.noMsg
       else RawRead.body ⟨(takeBytes n rest).1⟩ (takeBytes n rest).2) := by
  unfold readAfterHeaders
  rw [hlk]
  have hneg : ¬((n : Int) ≤ 0) := by
    have : (0 : Int) < (n : Int) := by exact_mod_cast hn
    omega
  have hint : pyIntOfStr ⟨natRepr n⟩ = some ((n : Int)) := by
    rw [pyIntOfStr_natRepr]
    rfl
  simp only [Option.getD_some, hint, Int.toNat_natCast]
  rw [if_neg hneg]

/-- The framing write followed by the framing read returns exactly the
serialized body with nothing left over. -/
theorem readRaw_write (v : JVal) :
    readRaw (writeMessageStream v) = RawRead.body ⟨jser v⟩ [] := by
  have hJ : jser v ≠ [] := jser_ne_nil v
  have hN1 : 1 ≤ utf8Len (jser v) := utf8Len_pos _ hJ
  obtain ⟨d, ds, hcons⟩ : ∃ d ds, natRepr (utf8Len (jser v)) = d :: ds := by
    cases h : natRepr (utf8Len (jser v)) with
    | nil => exact absurd h (natRepr_ne_nil _)
    | cons d ds => exact ⟨d, ds, rfl⟩
  have hdigAll := natRepr_all_digits (utf8Len (jser v))
  have hstream : writeMessageStream v
      = ("Content-Length: ".data ++ natRepr (utf8Len (jser v)) ++ ['\r'])
        ++ '\n' :: ('\r' :: '\n' :: jser v) := by
    show ("Content-Length: ".data ++ natRepr (utf8Len (jser v)) ++ ['\r', '\n', '\r', '\n'])
        ++ jser v = _
    simp
  have hA : ∀ c ∈ "Content-Length: ".data, c ≠ '\n' := by decide
  have hlnl : ∀ c ∈ ("Content-Length: ".data ++ natRepr (utf8Len (jser v)) ++ ['\r']),
      c ≠ '\n' := by
    intro c hc
    rcases List.mem_append.1 hc with hc1 | hc2
    · rcases List.mem_append.1 hc1 with hca | hcr
      · exact hA c hca
      · exact (isDigitCh_fact c (hdigAll c hcr)).2.2.2.2.1
    · simp only [List.mem_singleton] at hc2
      subst hc2
      decide
  have htl1 : takeLine (writeMessageStream v)
      = (("Content-Length: ".data ++ natRepr (utf8Len (jser v)) ++ ['\r']) ++ ['\n'],
         '\r' :: '\n' :: jser v) := by
    rw [hstream]
    exact takeLine_append _ _ hlnl
  have hADne : ("Content-Length: ".data ++ natRepr (utf8Len (jser v)))
      = 'C' :: ("ontent-Length: ".data ++ natRepr (utf8Len (jser v))) := rfl
  have h3 : ∀ c, ("Content-Length: ".data ++ natRepr (utf8Len (jser v))).head? = some c →
      isPyWs c = false := by
    intro c hc
    rw [hADne] at hc
    simp only [List.head?_cons, Option.some.injEq] at hc
    rw [← hc]
    decide
  have h4 : ∀ c, (("Content-Length: ".data ++ natRepr (utf8Len (jser v))).reverse).head? = some c →
      isPyWs c = false := by
    intro c hc
    rw [reverse_head_last _ _ (natRepr_ne_nil _)] at hc
    exact (isDigitCh_fact c (natRepr_rev_head_digit _ c hc)).2.1
  have hsand : trimBoth ([] ++ ("Content-Length: ".data ++ natRepr (utf8Len (jser v))) ++ ['\r', '\n'])
      = "Content-Length: ".data ++ natRepr (utf8Len (jser v)) :=
    trimBoth_sandwich [] _ ['\r', '\n'] (by simp) (by decide) h3 h4
  have hdec1 : trimBoth ((("Content-Length: ".data ++ natRepr (utf8Len (jser v)) ++ ['\r']) ++ ['\n']))
      = "Content-Length: ".data ++ natRepr (utf8Len (jser v)) := by
    rw [show ((("Content-Length: ".data ++ natRepr (utf8Len (jser v)) ++ ['\r']) ++ ['\n']))
        = [] ++ ("Content-Length: ".data ++ natRepr (utf8Len (jser v))) ++ ['\r', '\n'] from by simp]
    exact hsand
  have hsplitA : splitColon ("Content-Length: ".data ++ natRepr (utf8Len (jser v)))
      = some ("Content-Length".data, ' ' :: natRepr (utf8Len (jser v))) := by
    rw [show "Content-Length: ".data ++ natRepr (utf8Len (jser v))
        = "Content-Length".data ++ ':' :: (' ' :: natRepr (utf8Len (jser v))) from rfl]
    exact splitColon_append _ _ (by decide)
  have hsplitL : splitColon (trimBoth ((("Content-Length: ".data ++ natRepr (utf8Len (jser v)) ++ ['\r']) ++ ['\n'])))
      = some ("Content-Length".data, ' ' :: natRepr (utf8Len (jser v))) := by
    rw [hdec1]
    exact hsplitA
  have htrimv : trimBoth (' ' :: natRepr (utf8Len (jser v))) = natRepr (utf8Len (jser v)) := by
    rw [show (' ' :: natRepr (utf8Len (jser v)))
        = [' '] ++ natRepr (utf8Len (jser v)) ++ [] from by simp]
    refine trimBoth_sandwich [' '] _ [] (by decide) (by simp) ?_ ?_
    · intro c hc
      rw [hcons] at hc
      simp only [List.head?_cons, Option.some.injEq] at hc
      rw [← hc]
      exact (isDigitCh_fact d (hdigAll d (by rw [hcons]; simp))).2.1
    · intro c hc
      exact (isDigitCh_fact c (natRepr_rev_head_digit _ c hc)).2.1
  have hkey : lowerList (trimBoth "Content-Length".data) = "content-length".data := by decide
  have hline_eq : (("Content-Length: ".data ++ natRepr (utf8Len (jser v)) ++ ['\r']) ++ ['\n'])
      = 'C' :: ((("ontent-Length: ".data ++ natRepr (utf8Len (jser v))) ++ ['\r']) ++ ['\n']) := rfl
  have hline_ne : (("Content-Length: ".data ++ natRepr (utf8Len (jser v)) ++ ['\r']) ++ ['\n']) ≠ [] := by
    rw [hline_eq]
    simp
  have hline_ne2 : (("Content-Length: ".data ++ natRepr (utf8Len (jser v)) ++ ['\r']) ++ ['\n'])
      ≠ ['\r', '\n'] := by
    rw [hline_eq]
    intro h
    injection h with h1 _
    exact absurd h1 (by decide)
  have hline_ne3 : (("Content-Length: ".data ++ natRepr (utf8Len (jser v)) ++ ['\r']) ++ ['\n'])
      ≠ ['\n'] := by
    rw [hline_eq]
    intro h
    injection h with h1 _
    exact absurd h1 (by decide)
  have hdec_ne : trimBoth ((("Content-Length: ".data ++ natRepr (utf8Len (jser v)) ++ ['\r']) ++ ['\n'])) ≠ [] := by
    rw [hdec1, hADne]
    simp
  show readRawLoop ((writeMessageStream v).length + 1) (writeMessageStream v) []
      = RawRead.body ⟨jser v⟩ []
  rw [readRawLoop_step_header ((writeMessageStream v).length) (writeMessageStream v)
    ('\r' :: '\n' :: jser v) _ [] _ _ htl1 hline_ne hline_ne2 hline_ne3 hdec_ne hsplitL]
  rw [hkey, htrimv]
  have hge : 1 ≤ (writeMessageStream v).length := by
    rw [hstream]
    simp only [List.length_append, List.length_cons]
    omega
  have hlen2 : (writeMessageStream v).length = ((writeMessageStream v).length - 1) + 1 := by
    omega
  rw [hlen2, readRawLoop_step_blank _ _ _ _ (takeLine_crlf (jser v))]
  have hhs : setHeader [] ("content-length".data) (natRepr (utf8Len (jser v)))
      = [("content-length".data, natRepr (utf8Len (jser v)))] := rfl
  have hlook : hLookup [("content-length".data, natRepr (utf8Len (jser v)))] "content-length".data
      = some (natRepr (utf8Len (jser v))) := by
    simp [hLookup]
  rw [hhs, readAfterHeaders_eval _ _ _ hlook hN1]
  simp only [takeBytes_full]
  rw [if_neg hJ]

/-- C8: For every JSON value, writing it through the framing codec
(`_write_message`: Content-Length header, blank line, body bytes) and then
reading the stream back (`_read_message`) yields a raw body byte-identical
to the serialized original with nothing left over, and the decoded message
equals the original value. -/
theorem C8_framing_roundtrip : ∀ v : JVal,
    readRaw (writeMessageStream v) = RawRead.body ⟨jser v⟩ [] ∧
    readMessage (writeMessageStream v) = ReadMsg.msgVal v [] := by
  intro v
  refine ⟨readRaw_write v, ?_⟩
  simp only [readMessage, readRaw_write v, loads_jser v]
